import Mathlib

/-
Verification of the incremental dependency/caching engine of
docker-compose-templer (Python).  The development below is a shallow
embedding of the code under src/docker_compose_templer/: parsed YAML
data is modelled by the mutual inductive type Value/VList/VDict
(Python dicts are association lists preserving insertion order),
fallible Python code is modelled with Except, and the external
collaborators (the Jinja2 engine, ruamel.yaml, ast.literal_eval) are
parameters collected in the structure Ext.  The sha1 fingerprint
function utils.hash is modelled as the identity on the hashed value:
two fingerprints are equal exactly when the underlying values are
equal (hash collisions are ignored).
-/

namespace DCT

/- ------------------------------------------------------------------
   Parsed YAML values (Python objects).  omitObj models an instance of
   the class JinjaRenderer.Omit from jinja_renderer.py.
------------------------------------------------------------------ -/

mutual

inductive Value where
  | null : Value
  | str : String → Value
  | int : Int → Value
  | bool : Bool → Value
  | omitObj : Value
  | list : VList → Value
  | dict : VDict → Value
deriving DecidableEq

inductive VList where
  | nil : VList
  | cons : Value → VList → VList
deriving DecidableEq

inductive VDict where
  | nil : VDict
  | cons : String → Value → VDict → VDict
deriving DecidableEq

end

/- type(v) is dict -/
def isDictV : Value → Bool
  | .dict _ => true
  | _ => false

/- Association-list primitives for Python dicts.  dictLookup k is
   d[k] / `k in d`; dictSet is `d[k] = v` (replaces in place, else
   appends, matching Python dict insertion-order semantics). -/

def dictLookup : VDict → String → Option Value
  | .nil, _ => none
  | .cons k v tl, key => if k = key then some v else dictLookup tl key

def dictSet : VDict → String → Value → VDict
  | .nil, k, v => .cons k v .nil
  | .cons k' v' tl, k, v =>
      if k' = k then .cons k' v tl else .cons k' v' (dictSet tl k v)

/- dict(x, **y): a copy of x updated with every binding of y. -/
def dictUpdateAll (x : VDict) : VDict → VDict
  | .nil => x
  | .cons k v tl => dictUpdateAll (dictSet x k v) tl

def dictKeys : VDict → List String
  | .nil => []
  | .cons k _ tl => k :: dictKeys tl

def dictEntries : VDict → List (String × Value)
  | .nil => []
  | .cons k v tl => (k, v) :: dictEntries tl

/- ------------------------------------------------------------------
   utils.merge_dicts.

   def merge_dicts(x, y):
       if x is None and y is None: return ⦃⦄
       if x is None: return y
       if y is None: return x
       merged = dict(x, **y)
       xkeys = x.keys()
       for key in xkeys:
           if type(x[key]) is dict and key in y:
               merged[key] = merge_dicts(x[key], y[key])
       return merged

   The recursive call merge_dicts(x[key], y[key]) is made whenever
   x[key] is a dict and key is in y, regardless of the type of
   y[key]; when y[key] is neither a dict nor None, dict(x, **y)
   inside the recursive call raises TypeError.  mergeFix is the for
   loop; the Except models the possible TypeError.
------------------------------------------------------------------ -/

mutual

def merge_dicts : Value → Value → Except String Value
  | .null, .null => .ok (.dict .nil)
  | .null, y => .ok y
  | x, .null => .ok x
  | .dict xs, .dict ys => (mergeFix xs ys (dictUpdateAll xs ys)).map .dict
  | _, _ => .error "TypeError: argument after ** must be a mapping"

def mergeFix : VDict → VDict → VDict → Except String VDict
  | .nil, _, merged => .ok merged
  | .cons k v xs, ys, merged =>
      if isDictV v then
        match dictLookup ys k with
        | some w =>
            match merge_dicts v w with
            | .error e => .error e
            | .ok mv => mergeFix xs ys (dictSet merged k mv)
        | none => mergeFix xs ys merged
      else mergeFix xs ys merged

end

/- merge_dicts restricted to the dict/dict case (used by callers that
   always pass two dicts). -/
def mergeVDicts (xs ys : VDict) : Except String VDict :=
  mergeFix xs ys (dictUpdateAll xs ys)

/- ------------------------------------------------------------------
   External collaborators (spec section 6): the Jinja2 template engine
   (jinja2.Environment.from_string(...).render), the string evaluator
   _evaluate_string (ast.literal_eval / strtobool), and ruamel.yaml
   load/dump.  They are opaque to this development and supplied as
   parameters.
------------------------------------------------------------------ -/

structure Ext where
  render : String → VDict → Except String String
  eval : String → Value
  load_yaml : String → Except String Value
  dump_yaml : Value → String

/- JinjaRenderer.omit_placeholder: a string of the form
   __omit_place_holder__ followed by a process-random sha1 hex digest.
   The random suffix is opaque; it is modelled by a fixed suffix. -/
def omit_placeholder : String :=
  "__omit_place_holder__b5e1e8072f9f4d98e25eba0a35eb7e8296b0b9a2"

/- Character-list string helpers (structurally recursive, so that the
   kernel can evaluate closed applications). -/

def charsPre : List Char → List Char → Bool
  | [], _ => true
  | _ :: _, [] => false
  | c :: cs, d :: ds => c = d && charsPre cs ds

def charsSub (needle : List Char) : List Char → Bool
  | [] => charsPre needle []
  | d :: ds => charsPre needle (d :: ds) || charsSub needle ds

/- value.find(JinjaRenderer.omit_placeholder) != -1 : substring test. -/
def containsOmit (s : String) : Bool :=
  charsSub omit_placeholder.toList s.toList

/- ------------------------------------------------------------------
   JinjaRenderer.render_string.  The Python function first executes
   context[omitKey] = JinjaRenderer.omit_placeholder, mutating the
   context dict that was passed in; the returned pair carries the
   mutated context so that callers can thread the mutation.
------------------------------------------------------------------ -/

def render_string (E : Ext) (template_string : String) (context : VDict) :
    VDict × Except String String :=
  let context := dictSet context "omit" (.str omit_placeholder)
  (context, E.render template_string context)

/- ------------------------------------------------------------------
   JinjaRenderer._render_recursively together with its list and dict
   loops.  A returned .omitObj corresponds to returning an instance of
   JinjaRenderer.Omit.  The context is threaded through because
   render_string mutates it (see above).
------------------------------------------------------------------ -/

mutual

def render_recursively (E : Ext) : Value → VDict → Except String (VDict × Value)
  | .null, ctx => .ok (ctx, .null)
  | .str s, ctx =>
      match render_string E s ctx with
      | (_, .error e) => .error e
      | (ctx, .ok rendered) =>
          if rendered = s then .ok (ctx, .str s)
          else if containsOmit rendered then .ok (ctx, .omitObj)
          else .ok (ctx, E.eval rendered)
  | .list xs, ctx =>
      match renderListRec E xs ctx with
      | .error e => .error e
      | .ok (ctx, l) => .ok (ctx, .list l)
  | .dict xs, ctx =>
      match renderDictRec E xs ctx with
      | .error e => .error e
      | .ok (ctx, d) => .ok (ctx, .dict d)
  | v, ctx => .ok (ctx, v)

def renderListRec (E : Ext) : VList → VDict → Except String (VDict × VList)
  | .nil, ctx => .ok (ctx, .nil)
  | .cons v tl, ctx =>
      match render_recursively E v ctx with
      | .error e => .error e
      | .ok (ctx, pv) =>
          match renderListRec E tl ctx with
          | .error e => .error e
          | .ok (ctx, ptl) =>
              .ok (ctx, if pv = .omitObj then ptl else .cons pv ptl)

def renderDictRec (E : Ext) : VDict → VDict → Except String (VDict × VDict)
  | .nil, ctx => .ok (ctx, .nil)
  | .cons k v tl, ctx =>
      match render_recursively E v ctx with
      | .error e => .error e
      | .ok (ctx, pv) =>
          match renderDictRec E tl ctx with
          | .error e => .error e
          | .ok (ctx, ptl) =>
              .ok (ctx, if pv = .omitObj then ptl else .cons k pv ptl)

end

/- ------------------------------------------------------------------
   JinjaRenderer.render_dict_and_add_to_context: starting from a copy
   of the context, renders each binding of the_dict in order and
   merges it over the evolving context (Omit results are skipped).
   merge_dicts is called with two dicts here, hence mergeVDicts.
------------------------------------------------------------------ -/

def renderAddLoop (E : Ext) : VDict → VDict → Except String VDict
  | .nil, new_context => .ok new_context
  | .cons k v tl, new_context =>
      match render_recursively E v new_context with
      | .error e => .error e
      | .ok (new_context, pv) =>
          if pv = .omitObj then renderAddLoop E tl new_context
          else
            match mergeVDicts new_context (.cons k pv .nil) with
            | .error e => .error e
            | .ok m => renderAddLoop E tl m

def render_dict_and_add_to_context (E : Ext) (the_dict : VDict) (context : VDict) :
    Except String VDict :=
  renderAddLoop E the_dict context

/- ------------------------------------------------------------------
   JinjaRenderer.remove_omit_from_dict: recursively deletes every
   entry of a mapping and every element of a sequence whose processed
   value is an Omit; a string containing the omit placeholder becomes
   an Omit.  Containers are processed in place in Python; the model
   rebuilds them.
------------------------------------------------------------------ -/

mutual

def remove_omit_from_dict : Value → Value
  | .null => .null
  | .str s => if containsOmit s then .omitObj else .str s
  | .list xs => .list (removeOmitList xs)
  | .dict xs => .dict (removeOmitDict xs)
  | v => v

def removeOmitList : VList → VList
  | .nil => .nil
  | .cons v tl =>
      let pv := remove_omit_from_dict v
      if pv = .omitObj then removeOmitList tl
      else .cons pv (removeOmitList tl)

def removeOmitDict : VDict → VDict
  | .nil => .nil
  | .cons k v tl =>
      let pv := remove_omit_from_dict v
      if pv = .omitObj then removeOmitDict tl
      else .cons k pv (removeOmitDict tl)

end

/- ------------------------------------------------------------------
   utils.load_yaml: wraps the ruamel parse; `return yml.load(string)
   or ⦃⦄` turns any falsy parse result into the empty dict.
------------------------------------------------------------------ -/

def pythonFalsy : Value → Bool
  | .null => true
  | .str s => s = ""
  | .int n => n = 0
  | .bool b => b = false
  | .omitObj => false
  | .list .nil => true
  | .list _ => false
  | .dict .nil => true
  | .dict _ => false

def load_yaml (E : Ext) (s : String) : Except String Value :=
  match E.load_yaml s with
  | .error e => .error ("YAML parsing error: " ++ e)
  | .ok v => .ok (if pythonFalsy v then .dict .nil else v)

/- ------------------------------------------------------------------
   Filesystem model and os.path helpers.  A Disk maps absolute paths
   to nodes; FsNode.dir stands for any non-regular-file entry.
------------------------------------------------------------------ -/

inductive FsNode where
  | file (content : String)
  | dir
deriving DecidableEq

abbrev Disk := List (String × FsNode)

def assocFind {κ α : Type} [DecidableEq κ] : List (κ × α) → κ → Option α
  | [], _ => none
  | (k, a) :: tl, key => if k = key then some a else assocFind tl key

def assocSet {κ α : Type} [DecidableEq κ] : List (κ × α) → κ → α → List (κ × α)
  | [], k, a => [(k, a)]
  | (k', a') :: tl, k, a =>
      if k' = k then (k', a) :: tl else (k', a') :: assocSet tl k a

def os_path_isabs (p : String) : Bool :=
  match p.toList with
  | '/' :: _ => true
  | _ => false

def charsEndSlash : List Char → Bool
  | [] => false
  | [c] => c = '/'
  | _ :: c :: tl => charsEndSlash (c :: tl)

def os_path_join (a b : String) : String :=
  if a = "" then b else if charsEndSlash a.toList then a ++ b else a ++ "/" ++ b

def splitSlash : List Char → List (List Char)
  | [] => [[]]
  | c :: cs =>
      let r := splitSlash cs
      if c = '/' then [] :: r
      else
        match r with
        | h :: t => (c :: h) :: t
        | [] => [[c]]

def joinSlash : List (List Char) → List Char
  | [] => []
  | [x] => x
  | x :: xs => x ++ '/' :: joinSlash xs

def os_path_dirname (p : String) : String :=
  let parts := splitSlash p.toList
  if parts.length ≤ 1 then ""
  else
    let d := joinSlash parts.dropLast
    if d = [] then "/" else String.mk d

/- CachedFile.read: FileNotFoundError when the path is absent, IOError
   when it is not a regular file, else the content.  The read cache of
   CachedFile only avoids repeated filesystem reads of an unchanged
   file; while the disk is unchanged the model re-read returns the
   same content, so the cache is not modelled separately here. -/
def CachedFile_read (disk : Disk) (path : String) : Except String String :=
  match assocFind disk path with
  | none => .error ("FileNotFoundError: File does not exist: " ++ path)
  | some .dir => .error ("IOError: Is not a file: " ++ path)
  | some (.file c) => .ok c

/- CachedFile.write.  When the destination path is absent,
   os.makedirs(dirname, exist_ok=True) runs if the dirname is
   non-empty: exist_ok suppresses the error only when the existing
   entry is a directory, so a parent that exists as a regular file
   makes makedirs raise FileExistsError; an absent parent is created
   (the model tracks the immediate parent; deeper missing ancestors
   are created alike, and are not represented separately in the flat
   disk model). -/
def CachedFile_write (disk : Disk) (content path : String) (force_overwrite : Bool) :
    Except String Disk :=
  match assocFind disk path with
  | some (.file _) =>
      if force_overwrite then .ok (assocSet disk path (.file content))
      else .error ("Destination already exists. Use -f flag to overwrite the file: " ++ path)
  | some .dir => .error ("Destination exists and is not a file: " ++ path)
  | none =>
      if os_path_dirname path = "" then .ok (assocSet disk path (.file content))
      else
        match assocFind disk (os_path_dirname path) with
        | some (.file _) =>
            .error ("FileExistsError: [Errno 17] File exists: " ++ os_path_dirname path)
        | some .dir => .ok (assocSet disk path (.file content))
        | none =>
            .ok (assocSet (assocSet disk (os_path_dirname path) .dir) path
              (.file content))

/- ------------------------------------------------------------------
   Context chain (context.py).  A ContextChain owns a list of
   ContextChainElements; an element's source is either a CachedFile or
   an inline dict ⦃path, data⦄ from the definition file.  cache and
   cache_hash mirror the memoized context and its fingerprint (the
   fingerprint of a value is modelled as the value itself).
------------------------------------------------------------------ -/

inductive ChainSource where
  | file (path : String)
  | dictData (path : String) (data : VDict)
deriving DecidableEq

def ChainSource.originPath : ChainSource → String
  | .file p => p
  | .dictData p _ => p

structure ChainElem where
  source : ChainSource
  cache : Option VDict
  cache_hash : Option VDict
deriving DecidableEq

/- ContextChainElement._create_context for the element at index i,
   with the element at index i-1 as prev.  prev.get_context() (return
   the memoized cache, else create it) is inlined so that the
   recursion is structural on the index.  `read` is CachedFile.read of
   the sources; load_yaml is applied to the raw content as in the
   Python code.  render_dict_and_add_to_context iterates the items of
   the loaded value, so a non-dict load result raises AttributeError
   inside the wrapped region. -/
def elemCreateContext (E : Ext) (read : String → Except String String) :
    Nat → List ChainElem → Except String (List ChainElem × VDict)
  | i, chain =>
    match chain.get? i with
    | none => .error "IndexError: list index out of range"
    | some e =>
      let parentRes : Except String (List ChainElem × VDict) :=
        match i with
        | 0 => .ok (chain, .nil)
        | j + 1 =>
            match chain.get? j with
            | none => .error "IndexError: list index out of range"
            | some p =>
                match p.cache with
                | some c => .ok (chain, c)
                | none => elemCreateContext E read j chain
      match parentRes with
      | .error err => .error err
      | .ok (chain1, parent_context) =>
        let rendered : Except String VDict :=
          match e.source with
          | .file p =>
              match read p with
              | .error err => .error err
              | .ok content =>
                  let loaded : Except String VDict :=
                    match load_yaml E content with
                    | .error err => .error err
                    | .ok (.dict d) => render_dict_and_add_to_context E d parent_context
                    | .ok _ => .error "AttributeError: loaded value has no items"
                  match loaded with
                  | .error err =>
                      .error ("Cannot load variables from " ++ p ++ ": " ++ err)
                  | .ok c => .ok c
          | .dictData p d =>
              match render_dict_and_add_to_context E d parent_context with
              | .error err => .error ("Cannot load variables from " ++ p ++ ": " ++ err)
              | .ok c => .ok c
        match rendered with
        | .error err => .error err
        | .ok c => .ok (chain1.set i { e with cache := some c, cache_hash := some c }, c)

/- ContextChainElement.get_context. -/
def elemGetContext (E : Ext) (read : String → Except String String)
    (chain : List ChainElem) (i : Nat) : Except String (List ChainElem × VDict) :=
  match chain.get? i with
  | none => .error "IndexError: list index out of range"
  | some e =>
      match e.cache with
      | some c => .ok (chain, c)
      | none => elemCreateContext E read i chain

/- ContextChain.get_context: chain_elements[-1].get_context();
   an empty chain raises IndexError. -/
def chain_get_context (E : Ext) (read : String → Except String String)
    (chain : List ChainElem) : Except String (List ChainElem × VDict) :=
  elemGetContext E read chain (chain.length - 1)

/- ContextChainElement._on_change: remember the old fingerprint,
   recompute via _create_context, and dispatch the element's
   on_change_event (to which the chain's event, and through it the
   dependent unit's render, is subscribed) iff the fingerprint moved.
   The returned Bool is that dispatch decision. -/
def elemOnChange (E : Ext) (read : String → Except String String)
    (chain : List ChainElem) (i : Nat) : Except String (List ChainElem × Bool) :=
  match chain.get? i with
  | none => .error "IndexError: list index out of range"
  | some e =>
      let old_hash := e.cache_hash
      match elemCreateContext E read i chain with
      | .error err => .error err
      | .ok (chain1, _) =>
          match chain1.get? i with
          | none => .error "IndexError: list index out of range"
          | some e1 => .ok (chain1, decide (e1.cache_hash ≠ old_hash))

/- ------------------------------------------------------------------
   Change cascade of one watched file (cached_file.py together with
   context.py).  CachedFile._on_change re-reads the file, recomputes
   the content fingerprint, and invokes the subscribed handlers only
   if the fingerprint differs from the cached one.  A subscriber is
   either a unit's Template.render bound directly (the file is the
   unit's template source) or the _on_change of the single
   ContextChainElement of a dependent unit's chain that sources this
   file (the file is an include_vars file of that unit).  The Nat in
   each result counts how many times the dependent unit's render was
   invoked by this notification.
------------------------------------------------------------------ -/

inductive FileSub where
  | render
  | elem (e : ChainElem)
deriving DecidableEq

def notify_sub (E : Ext) (newContent : String) :
    FileSub → Except String (FileSub × Nat)
  | .render => .ok (.render, 1)
  | .elem e =>
      match elemOnChange E (fun _ => .ok newContent) [e] 0 with
      | .error err => .error err
      | .ok (chain1, fired) =>
          match chain1 with
          | [e1] => .ok (.elem e1, if fired then 1 else 0)
          | _ => .error "IndexError: list index out of range"

def notifyAll (E : Ext) (newContent : String) :
    List FileSub → Except String (List (FileSub × Nat))
  | [] => .ok []
  | s :: tl =>
      match notify_sub E newContent s with
      | .error err => .error err
      | .ok r =>
          match notifyAll E newContent tl with
          | .error err => .error err
          | .ok rs => .ok (r :: rs)

/- CachedFile._on_change: oldContent is the cached content (its
   fingerprint is modelled by the content itself), newContent the
   re-read one.  When the fingerprints agree no handler runs. -/
def CachedFile_on_change (E : Ext) (oldContent newContent : String)
    (subs : List FileSub) : Except String (List (FileSub × Nat)) :=
  if oldContent = newContent then .ok (subs.map (fun s => (s, 0)))
  else notifyAll E newContent subs

/- ------------------------------------------------------------------
   Render units and the manifest parser (template.py, definition.py).
   A unit's identity is the tuple hashed in Definition._parse
   (fingerprints are modelled by the hashed tuples themselves).
------------------------------------------------------------------ -/

structure UnitConfig where
  global_include_vars : List String
  global_vars : VDict
  include_vars : List String
  vars : VDict
  src : String
  dest : String
deriving DecidableEq

/- The handlers that can sit in a CachedFile's on_change_event list:
   Definition._on_change of the manifest with the given path, the
   _on_change of chain element idx owned by the unit with the given
   configuration, or Template.render of that unit.  Handler equality
   models Python bound-method equality. -/
inductive Handler where
  | defOnChange (defPath : String)
  | elemOnChange (owner : UnitConfig) (idx : Nat)
  | templRender (owner : UnitConfig)
deriving DecidableEq

/- CachedFile.files: the process-wide registry, reduced to each
   entry's subscriber list (the only attribute the claims observe). -/
abbrev Registry := List (String × List Handler)

def registryGetFile (reg : Registry) (path : String) : Registry :=
  if (assocFind reg path).isSome then reg else reg ++ [(path, [])]

def registrySubscribe (reg : Registry) (path : String) (h : Handler) : Registry :=
  match assocFind reg path with
  | some hs => assocSet reg path (hs ++ [h])
  | none => reg ++ [(path, [h])]

/- Event.__isub__: list.remove drops the first occurrence if any. -/
def eventRemove : List Handler → Handler → List Handler
  | [], _ => []
  | h :: tl, x => if h = x then tl else h :: eventRemove tl x

def registryUnsub (reg : Registry) (path : String) (h : Handler) : Registry :=
  match assocFind reg path with
  | some hs => assocSet reg path (eventRemove hs h)
  | none => reg

/- CachedFile.cleanup_unused_files: evict every entry whose
   on_change_event list is empty. -/
def cleanup_unused_files (reg : Registry) : Registry :=
  reg.filter (fun p => !p.2.isEmpty)

/- ContextChain.add_files: resolve each path relative to the
   definition file, register the CachedFile, subscribe the new chain
   element's _on_change to it, append the element. -/
def add_files (owner : UnitConfig) (relative_path : String) :
    List String → List ChainElem → Registry → List ChainElem × Registry
  | [], chain, reg => (chain, reg)
  | path :: rest, chain, reg =>
      let p := if os_path_isabs path then path else os_path_join relative_path path
      let reg1 := registrySubscribe (registryGetFile reg p) p (.elemOnChange owner chain.length)
      add_files owner relative_path rest (chain ++ [⟨.file p, none, none⟩]) reg1

/- ContextChain.add_context: a falsy (empty) context adds nothing. -/
def add_context (chain : List ChainElem) (context : VDict) (origin_path : String) :
    List ChainElem :=
  if context = .nil then chain
  else chain ++ [⟨.dictData origin_path context, none, none⟩]

structure Templ where
  src : String
  dest : String
  relative_path : String
  context : List ChainElem
  boundPath : String
  force_overwrite : Bool
deriving DecidableEq

/- Template._create_path: render the literal path against the chain's
   context; when absolute is requested a relative result is joined
   with the definition file's directory.  render_string mutates the
   context dict it is given by inserting the constant omit binding;
   that mutation of the memoized cache is not persisted here (nothing
   in the claims observes it, since every later render re-inserts the
   same binding). -/
def create_path (E : Ext) (read : String → Except String String)
    (chain : List ChainElem) (relative_path path : String) (absolute : Bool) :
    Except String (List ChainElem × String) :=
  match chain_get_context E read chain with
  | .error e => .error e
  | .ok (chain1, ctx) =>
      match (render_string E path ctx).2 with
      | .error e => .error e
      | .ok p =>
          if absolute && !os_path_isabs p then .ok (chain1, os_path_join relative_path p)
          else .ok (chain1, p)

/- Template.__init__: resolves the source path against the chain
   context, registers the CachedFile for it and subscribes render;
   the chain's on_change_event also receives render (chain-internal,
   not part of the file registry). -/
def Template_new (E : Ext) (disk : Disk) (owner : UnitConfig)
    (src dest relative_path : String) (chain : List ChainElem)
    (force_overwrite : Bool) (reg : Registry) : Except String (Templ × Registry) :=
  match create_path E (CachedFile_read disk) chain relative_path src true with
  | .error e => .error e
  | .ok (chain1, p) =>
      let reg1 := registrySubscribe (registryGetFile reg p) p (.templRender owner)
      .ok ({ src := src, dest := dest, relative_path := relative_path,
             context := chain1, boundPath := p, force_overwrite := force_overwrite }, reg1)

/- Template.remove / ContextChain.remove: unsubscribe every
   file-sourced chain element, then the unit's render handler. -/
def removeChainSubs (owner : UnitConfig) :
    List ChainElem → Nat → Registry → Registry
  | [], _, reg => reg
  | e :: tl, i, reg =>
      let reg1 :=
        match e.source with
        | .file p => registryUnsub reg p (.elemOnChange owner i)
        | .dictData _ _ => reg
      removeChainSubs owner tl (i + 1) reg1

def Template_remove (owner : UnitConfig) (t : Templ) (reg : Registry) : Registry :=
  let reg1 := removeChainSubs owner t.context 0 reg
  registryUnsub reg1 t.boundPath (.templRender owner)

/- The property Template.file: re-render the source path and compare
   it with the path of the currently bound CachedFile.  When they
   differ, the statement `self._file -= self.render` executes;
   CachedFile defines neither __isub__ nor __sub__, so the statement
   raises TypeError before the intended unsubscribe/re-bind/subscribe
   sequence can happen. -/
def Template_file (E : Ext) (read : String → Except String String) (t : Templ) :
    Except String (Templ × String) :=
  match create_path E read t.context t.relative_path t.src true with
  | .error e => .error e
  | .ok (chain1, path) =>
      if t.boundPath = path then .ok ({ t with context := chain1 }, path)
      else .error "TypeError: unsupported operand types for -=: CachedFile and method"

/- Template.render, up to the final write (the body of the try block).
   self.file.write is the static CachedFile.write; the extra property
   evaluation it entails returns the already-bound file unchanged. -/
def Template_render_body (E : Ext) (disk : Disk) (t : Templ) :
    Except String (Templ × Disk) :=
  let read := CachedFile_read disk
  match create_path E read t.context t.relative_path t.src false with
  | .error e => .error e
  | .ok (c1, _src_rel) =>
  match create_path E read c1 t.relative_path t.dest false with
  | .error e => .error e
  | .ok (c2, _dest_rel) =>
  match Template_file E read { t with context := c2 } with
  | .error e => .error e
  | .ok (t1, _) =>
  match read t1.boundPath with
  | .error e => .error e
  | .ok file_content =>
  match chain_get_context E read t1.context with
  | .error e => .error e
  | .ok (c3, ctx) =>
  let t2 := { t1 with context := c3 }
  match (render_string E file_content ctx).2 with
  | .error e => .error e
  | .ok rendered_file_content =>
  match load_yaml E rendered_file_content with
  | .error e => .error e
  | .ok parsed =>
  let processed_content := E.dump_yaml (remove_omit_from_dict parsed)
  match create_path E read t2.context t2.relative_path t2.dest true with
  | .error e => .error e
  | .ok (c4, dest_path) =>
  match CachedFile_write disk processed_content dest_path t2.force_overwrite with
  | .error e => .error e
  | .ok disk2 => .ok ({ t2 with context := c4 }, disk2)

/- Template.render: any exception from the body is caught at this
   boundary, logged, and reported as False.  (Chain caches warmed
   before a failure are not modelled on the failure path; no claim
   observes them.) -/
def Template_render (E : Ext) (disk : Disk) (t : Templ) : Bool × Templ × Disk :=
  match Template_render_body E disk t with
  | .ok (t1, disk1) => (true, t1, disk1)
  | .error _ => (false, t, disk)

/- ------------------------------------------------------------------
   Definition (definition.py): parsing one manifest into units.
------------------------------------------------------------------ -/

/- `key in value` on a parsed YAML node followed by value[key]; a
   membership test on a list or string compares against the elements
   or substrings and does not produce a value for the keys used here,
   so those cases read as absent; on other scalars `in` raises. -/
def valueHasKey : Value → String → Except String (Option Value)
  | .dict d, k => .ok (dictLookup d k)
  | .list _, _ => .ok none
  | .str _, _ => .ok none
  | _, _ => .error "TypeError: argument is not iterable"

/- The Python loop in add_files applies os.path.isabs to each
   include_vars element, so a non-string element raises TypeError
   there; the model raises at extraction time instead (no claim
   exercises non-string elements). -/
def stringListOf : VList → Except String (List String)
  | .nil => .ok []
  | .cons (.str s) tl =>
      match stringListOf tl with
      | .error e => .error e
      | .ok rest => .ok (s :: rest)
  | .cons _ _ => .error "TypeError: include_vars entries must be str"

/- Definition._parse_variable_options: returns (vars, include_vars)
   with defaults ⦃⦄ and []. -/
def parse_variable_options (options : Value) : Except String (VDict × List String) :=
  match valueHasKey options "vars" with
  | .error e => .error e
  | .ok varsOpt =>
  let pvarsRes : Except String VDict :=
    match varsOpt with
    | some (.dict d) => .ok d
    | some _ => .error "Value of vars must be of type dict"
    | none => .ok .nil
  match pvarsRes with
  | .error e => .error e
  | .ok pvars =>
  match valueHasKey options "include_vars" with
  | .error e => .error e
  | .ok incOpt =>
  let pincRes : Except String (List String) :=
    match incOpt with
    | some (.list l) => stringListOf l
    | some (.str s) => .ok [s]
    | some _ => .error "Value of include_vars must be of type list or string"
    | none => .ok []
  match pincRes with
  | .error e => .error e
  | .ok pinc => .ok (pvars, pinc)

/- The src/dest extraction of Definition._parse. -/
def entryPathString (t : Value) (key : String) : Except String String :=
  match valueHasKey t key with
  | .error e => .error e
  | .ok (some (.str s)) => .ok s
  | .ok (some _) => .error ("Value of " ++ key ++ " must be of type string")
  | .ok none => .error ("Missing key " ++ key ++ " in template definition")

/- The per-entry loop of Definition._parse.  The accumulators mirror
   the in-place mutations: templates (the local dict being built),
   self.changed_templates (mutated even when a later entry fails), and
   the CachedFile registry.  The error, if any, is carried alongside
   the state reached so far. -/
def parseLoop (E : Ext) (disk : Disk) (defPath : String) (force_overwrite : Bool)
    (old : List (UnitConfig × Templ)) (gvars : VDict) (gincl : List String) :
    VList → List (UnitConfig × Templ) → List UnitConfig → Registry →
    List (UnitConfig × Templ) × List UnitConfig × Registry × Option String
  | .nil, tn, ch, reg => (tn, ch, reg, none)
  | .cons t tl, tn, ch, reg =>
      match parse_variable_options t with
      | .error e => (tn, ch, reg, some e)
      | .ok (tvars, tincl) =>
      match entryPathString t "src" with
      | .error e => (tn, ch, reg, some e)
      | .ok src =>
      match entryPathString t "dest" with
      | .error e => (tn, ch, reg, some e)
      | .ok dest =>
      let thash : UnitConfig :=
        ⟨gincl, gvars, tincl, tvars, src, dest⟩
      match assocFind old thash with
      | some tOld =>
          -- reuse previous parsed templates (only in Auto Renderer mode)
          parseLoop E disk defPath force_overwrite old gvars gincl tl
            (tn ++ [(thash, tOld)]) ch reg
      | none =>
          let dirn := os_path_dirname defPath
          let (chain1, reg1) := add_files thash dirn gincl [] reg
          let chain2 := add_context chain1 gvars defPath
          let (chain3, reg2) := add_files thash dirn tincl chain2 reg1
          let chain4 := add_context chain3 tvars defPath
          match Template_new E disk thash src dest dirn chain4 force_overwrite reg2 with
          | .error e => (tn, ch, reg2, some e)
          | .ok (tm, reg3) =>
              parseLoop E disk defPath force_overwrite old gvars gincl tl
                (tn ++ [(thash, tm)]) (ch ++ [thash]) reg3

/- cleanup of undefined templates: every previously existing unit
   whose fingerprint is not among the freshly declared ones has
   Template.remove invoked on it; the removed fingerprints are
   collected. -/
def disposeLoop (tn : List (UnitConfig × Templ)) :
    List (UnitConfig × Templ) → Registry → Registry × List UnitConfig
  | [], reg => (reg, [])
  | (h, t) :: tl, reg =>
      if (assocFind tn h).isSome then disposeLoop tn tl reg
      else
        let reg1 := Template_remove h t reg
        let (reg2, rmd) := disposeLoop tn tl reg1
        (reg2, h :: rmd)

structure DefSt where
  path : String
  force_overwrite : Bool
  watch_changes : Bool
  templates : List (UnitConfig × Templ)
  changed_templates : List UnitConfig
deriving DecidableEq

structure ParseOut where
  changed : List UnitConfig
  reg : Registry
  removed : List UnitConfig
  result : Except String (List (UnitConfig × Templ))

/- Definition._parse.  self.changed_templates is reset to [] before
   anything is read, so the changed field carries the reset (and any
   entries appended before a failure) even when the result is an
   error; self.templates is only assigned on success, so the old unit
   mapping survives a failed parse (the caller keeps it). -/
def Definition_parse (E : Ext) (disk : Disk) (st : DefSt) (reg : Registry) : ParseOut :=
  match CachedFile_read disk st.path with
  | .error e => ⟨[], reg, [], .error e⟩
  | .ok content =>
  match load_yaml E content with
  | .error e => ⟨[], reg, [], .error e⟩
  | .ok fc =>
  match valueHasKey fc "templates" with
  | .error e => ⟨[], reg, [], .error e⟩
  | .ok none => ⟨[], reg, [], .error "Missing key templates in template definition"⟩
  | .ok (some tv) =>
  match tv with
  | .list entries =>
      match parse_variable_options fc with
      | .error e => ⟨[], reg, [], .error e⟩
      | .ok (gvars, gincl) =>
          match parseLoop E disk st.path st.force_overwrite st.templates gvars gincl
              entries [] [] reg with
          | (_, ch, reg1, some e) => ⟨ch, reg1, [], .error e⟩
          | (tn, ch, reg1, none) =>
              let (reg2, removed) := disposeLoop tn st.templates reg1
              let reg3 := cleanup_unused_files reg2
              ⟨ch, reg3, removed, .ok tn⟩
  | _ => ⟨[], reg, [], .error "Value of templates must be of type list"⟩

/- Definition._render_templates: render every unit in
   changed_templates in order; one failure does not stop the loop and
   the overall result is True only when no render failed.  The trace
   records each render call and its result. -/
def render_templates (E : Ext) :
    List (UnitConfig × Templ) → Disk → List UnitConfig →
    Bool × List (UnitConfig × Templ) × Disk × List (UnitConfig × Bool)
  | templates, disk, [] => (true, templates, disk, [])
  | templates, disk, h :: tl =>
      match assocFind templates h with
      | none =>
          -- unreachable for states produced by _parse: every changed
          -- fingerprint is installed in templates
          render_templates E templates disk tl
      | some t =>
          let (r, t1, disk1) := Template_render E disk t
          let templates1 := assocSet templates h t1
          let (allOk, templates2, disk2, tr) := render_templates E templates1 disk1 tl
          (r && allOk, templates2, disk2, (h, r) :: tr)

/- Definition.process: a parse failure is logged once and aborts the
   manifest (no render pass runs); otherwise the fresh unit mapping is
   installed and the changed units are rendered. -/
def Definition_process (E : Ext) (disk : Disk) (st : DefSt) (reg : Registry) :
    Bool × DefSt × Registry × Disk × List String :=
  let pr := Definition_parse E disk st reg
  match pr.result with
  | .error e =>
      (false, { st with changed_templates := pr.changed }, pr.reg, disk,
       ["Error loading options from definition file: " ++ e])
  | .ok tn =>
      let st1 := { st with templates := tn, changed_templates := pr.changed }
      let (ok, tmpls2, disk2, _) := render_templates E st1.templates disk st1.changed_templates
      (ok, { st1 with templates := tmpls2 }, pr.reg, disk2, [])

/- ------------------------------------------------------------------
   Concrete collaborator instances used by closed theorems and
   witnesses (a Jinja engine on inputs that contain no template
   syntax returns its input unchanged).
------------------------------------------------------------------ -/

/- A collaborator instance whose YAML parser knows the two variable
   files of the stale-suffix scenario. -/
def extStale : Ext where
  render := fun s _ => .ok s
  eval := fun s => .str s
  load_yaml := fun s =>
    if s = "a: 1" then .ok (.dict (.cons "a" (.int 1) .nil))
    else if s = "a: 9" then .ok (.dict (.cons "a" (.int 9) .nil))
    else .error "unknown file content"
  dump_yaml := fun _ => ""

/- The stale-suffix scenario: a two-element chain whose first element
   sources the watched file /m/vars.yml and whose second element holds
   the inline data b: 2; the file initially reads a: 1 and is then
   rewritten to a: 9. -/

def staleRead1 : String → Except String String :=
  fun p => if p = "/m/vars.yml" then .ok "a: 1"
           else .error ("FileNotFoundError: File does not exist: " ++ p)

def staleRead2 : String → Except String String :=
  fun p => if p = "/m/vars.yml" then .ok "a: 9"
           else .error ("FileNotFoundError: File does not exist: " ++ p)

def staleChain0 : List ChainElem :=
  [⟨.file "/m/vars.yml", none, none⟩,
   ⟨.dictData "/m/def.yml" (.cons "b" (.int 2) .nil), none, none⟩]

def ctxA1 : VDict := .cons "a" (.int 1) .nil
def ctxA9 : VDict := .cons "a" (.int 9) .nil
def ctxA1B2 : VDict := .cons "a" (.int 1) (.cons "b" (.int 2) .nil)
def ctxA9B2 : VDict := .cons "a" (.int 9) (.cons "b" (.int 2) .nil)

/- The chain after the first full get_context (both caches warm). -/
def staleChain1 : List ChainElem :=
  [⟨.file "/m/vars.yml", some ctxA1, some ctxA1⟩,
   ⟨.dictData "/m/def.yml" (.cons "b" (.int 2) .nil), some ctxA1B2, some ctxA1B2⟩]

/- The chain after the file change was processed: only element 0 was
   recomputed. -/
def staleChain2 : List ChainElem :=
  [⟨.file "/m/vars.yml", some ctxA9, some ctxA9⟩,
   ⟨.dictData "/m/def.yml" (.cons "b" (.int 2) .nil), some ctxA1B2, some ctxA1B2⟩]

/- The re-binding scenario: a unit whose source path is the template
   $n.yml (a path containing a variable reference), currently bound to
   /m/b1.yml, while the chain's variable n now renders the path to
   /m/b2.yml. -/

def extRebind : Ext where
  render := fun s ctx =>
    if s = "$n.yml" then
      match dictLookup ctx "n" with
      | some (.str v) => .ok (v ++ ".yml")
      | _ => .error "UndefinedError: n is undefined"
    else .ok s
  eval := fun s => .str s
  load_yaml := fun _ => .ok .null
  dump_yaml := fun _ => ""

def rebindChain : List ChainElem :=
  [⟨.dictData "/m/def.yml" (.cons "n" (.str "b2") .nil), none, none⟩]

def rebindTempl : Templ :=
  { src := "$n.yml", dest := "out.yml", relative_path := "/m",
    context := rebindChain, boundPath := "/m/b1.yml", force_overwrite := true }

/- The no-vars scenario: a manifest declaring one unit with neither
   global nor unit vars nor include_vars, so the unit's context chain
   stays empty. -/

def noVarsManifest : Value :=
  .dict (.cons "templates"
    (.list (.cons
      (.dict (.cons "src" (.str "a.yml") (.cons "dest" (.str "b.yml") .nil)))
      .nil)) .nil)

def extNoVars : Ext where
  render := fun s _ => .ok s
  eval := fun s => .str s
  load_yaml := fun s => if s = "MANIFEST" then .ok noVarsManifest else .error "unknown"
  dump_yaml := fun _ => ""

def noVarsDisk : Disk := [("/m/def.yml", .file "MANIFEST")]

def noVarsDef : DefSt :=
  { path := "/m/def.yml", force_overwrite := true, watch_changes := false,
    templates := [], changed_templates := [] }

/- The value-suppression scenario: two file contents with different
   fingerprints whose parsed variables coincide (a comment was
   appended). -/
def extComment : Ext where
  render := fun s _ => .ok s
  eval := fun s => .str s
  load_yaml := fun s =>
    if s = "a: 1" then .ok (.dict (.cons "a" (.int 1) .nil))
    else if s = "a: 1 # c" then .ok (.dict (.cons "a" (.int 1) .nil))
    else .error "unknown file content"
  dump_yaml := fun _ => ""

/- The outcome of dispatching one file-change notification to a
   subscriber, when the file's fresh variables render and merge (over
   the empty parent) to the context c: a directly subscribed render
   runs once; a chain element stores c and re-renders its unit iff its
   memoized fingerprint moved. -/
def c5Outcome (c : VDict) : FileSub → FileSub × Nat
  | .render => (.render, 1)
  | .elem e =>
      (.elem { e with cache := some c, cache_hash := some c },
       if some c = e.cache_hash then 0 else 1)

/- The mixed render pass scenario: two units sharing a warm
   single-element chain; the first unit's source file /m/s1.yml is
   missing (its render fails), the second unit's source /m/s2.yml
   renders and writes successfully. -/

def ctxX1 : VDict := .cons "x" (.int 1) .nil

def mixChain : List ChainElem :=
  [⟨.dictData "/m/def.yml" ctxX1, some ctxX1, some ctxX1⟩]

def mixCfg1 : UnitConfig := ⟨[], .nil, [], ctxX1, "s1.yml", "out1.yml"⟩
def mixCfg2 : UnitConfig := ⟨[], .nil, [], ctxX1, "s2.yml", "out2.yml"⟩

def mixT1 : Templ :=
  { src := "s1.yml", dest := "out1.yml", relative_path := "/m",
    context := mixChain, boundPath := "/m/s1.yml", force_overwrite := true }

def mixT2 : Templ :=
  { src := "s2.yml", dest := "out2.yml", relative_path := "/m",
    context := mixChain, boundPath := "/m/s2.yml", force_overwrite := true }

def mixTemplates : List (UnitConfig × Templ) := [(mixCfg1, mixT1), (mixCfg2, mixT2)]

def mixDisk : Disk := [("/m/s2.yml", .file "T")]

def extMix : Ext where
  render := fun s _ => .ok s
  eval := fun s => .str s
  load_yaml := fun s => if s = "T" then .ok (.dict .nil) else .error "unknown"
  dump_yaml := fun _ => "OUT"

/- The failed-parse scenario: a manifest file whose parsed content
   lacks the templates key, processed by a definition that had one
   installed unit and one pending render from the previous parse. -/

def extBad : Ext where
  render := fun s _ => .ok s
  eval := fun s => .str s
  load_yaml := fun s =>
    if s = "BAD" then .ok (.dict (.cons "foo" (.int 1) .nil)) else .error "unknown"
  dump_yaml := fun _ => ""

def badDisk : Disk := [("/m/def.yml", .file "BAD")]

def badDef : DefSt :=
  { path := "/m/def.yml", force_overwrite := true, watch_changes := false,
    templates := [(mixCfg1, mixT1)], changed_templates := [mixCfg1] }

/- The re-parse scenario: the manifest still declares the unit with
   fingerprint mixCfg1 (reused), newly declares mixCfg2 (created), and
   no longer declares oldCfg (disposed); oldCfg's unit was subscribed
   to its variable file /m/v3.yml and its source /m/s3.yml. -/

def parseManifest : Value :=
  .dict (.cons "templates" (.list
    (.cons (.dict (.cons "vars" (.dict ctxX1)
            (.cons "src" (.str "s1.yml") (.cons "dest" (.str "out1.yml") .nil))))
    (.cons (.dict (.cons "vars" (.dict ctxX1)
            (.cons "src" (.str "s2.yml") (.cons "dest" (.str "out2.yml") .nil))))
    .nil))) .nil)

def extParse : Ext where
  render := fun s _ => .ok s
  eval := fun s => .str s
  load_yaml := fun s =>
    if s = "PMANIFEST" then .ok parseManifest else .error "unknown"
  dump_yaml := fun _ => ""

def oldCfg : UnitConfig := ⟨[], .nil, [], ctxX1, "s3.yml", "out3.yml"⟩

def oldT : Templ :=
  { src := "s3.yml", dest := "out3.yml", relative_path := "/m",
    context := [⟨.file "/m/v3.yml", none, none⟩], boundPath := "/m/s3.yml",
    force_overwrite := true }

def parseDisk : Disk := [("/m/def.yml", .file "PMANIFEST")]

def parseDef : DefSt :=
  { path := "/m/def.yml", force_overwrite := true, watch_changes := false,
    templates := [(mixCfg1, mixT1), (oldCfg, oldT)], changed_templates := [] }

def parseReg0 : Registry :=
  [("/m/def.yml", [.defOnChange "/m/def.yml"]),
   ("/m/v3.yml", [.elemOnChange oldCfg 0]),
   ("/m/s3.yml", [.templRender oldCfg])]

end DCT

namespace DCT

/- ==================================================================
   THEOREMS
================================================================== -/

/- Single-motive structural induction for the mutual components (the
   default eliminators carry one motive per mutual type). -/

theorem vdictInduction {motive : VDict → Prop} (nil : motive .nil)
    (cons : ∀ k v tl, motive tl → motive (.cons k v tl)) : ∀ d, motive d
  | .nil => nil
  | .cons k v tl => cons k v tl (vdictInduction nil cons tl)

theorem vlistInduction {motive : VList → Prop} (nil : motive .nil)
    (cons : ∀ v tl, motive tl → motive (.cons v tl)) : ∀ l, motive l
  | .nil => nil
  | .cons v tl => cons v tl (vlistInduction nil cons tl)

/-- Claim C1 (code_bug): the claim states that after a processed
upstream change each element's memoized merged context equals its
predecessor's merged context overlaid with the element's own rendered
data, and that get_context returns the updated merged value (the
affected suffix is recomputed).  The code violates this: processing a
change of /m/vars.yml from a: 1 to a: 9 recomputes only element 0 and
dispatches the chain event, while element 1 keeps its memoized cache
a: 1, b: 2, so get_context returns the stale a: 1, b: 2 instead of
the a: 9, b: 2 that re-merging element 1 over its predecessor's new
context produces (the maintained next pointers are never consulted). -/
theorem chain_on_change_leaves_suffix_stale :
    chain_get_context extStale staleRead1 staleChain0 = .ok (staleChain1, ctxA1B2) ∧
    elemOnChange extStale staleRead2 staleChain1 0 = .ok (staleChain2, true) ∧
    chain_get_context extStale staleRead2 staleChain2 = .ok (staleChain2, ctxA1B2) ∧
    render_dict_and_add_to_context extStale (.cons "b" (.int 2) .nil) ctxA9 =
      .ok ctxA9B2 ∧
    ctxA1B2 ≠ ctxA9B2 :=
  ⟨rfl, rfl, rfl, rfl, by decide⟩

/- Idempotence of the sentinel-removal pass, by mutual structural
   induction over values, sequences and mappings. -/

mutual

theorem remove_omit_idem (v : Value) :
    remove_omit_from_dict (remove_omit_from_dict v) = remove_omit_from_dict v := by
  cases v with
  | null => rfl
  | str s =>
      by_cases h : containsOmit s
      · simp [remove_omit_from_dict, h]
      · simp [remove_omit_from_dict, h]
  | int n => rfl
  | bool b => rfl
  | omitObj => rfl
  | list xs =>
      simp only [remove_omit_from_dict]
      rw [removeOmitList_idem xs]
  | dict xs =>
      simp only [remove_omit_from_dict]
      rw [removeOmitDict_idem xs]

theorem removeOmitList_idem (xs : VList) :
    removeOmitList (removeOmitList xs) = removeOmitList xs := by
  cases xs with
  | nil => rfl
  | cons v tl =>
      by_cases h : remove_omit_from_dict v = .omitObj
      · simp [removeOmitList, h, removeOmitList_idem tl]
      · simp [removeOmitList, h, remove_omit_idem v, removeOmitList_idem tl]

theorem removeOmitDict_idem (xs : VDict) :
    removeOmitDict (removeOmitDict xs) = removeOmitDict xs := by
  cases xs with
  | nil => rfl
  | cons k v tl =>
      by_cases h : remove_omit_from_dict v = .omitObj
      · simp [removeOmitDict, h, removeOmitDict_idem tl]
      · simp [removeOmitDict, h, remove_omit_idem v, removeOmitDict_idem tl]

end

/-- Claim C9 (confirmed): the sentinel-removal pass is recursive and
idempotent: strip (strip v) = strip v for every structured value, and
stripping the mapping a: x, b: SENTINEL, c: (d: y, e: SENTINEL),
f: (1, SENTINEL, 3) removes the sentinel-marked entries from the
nested mapping and sequence, yielding a: x, c: (d: y), f: (1, 3). -/
theorem remove_omit_recursive_and_idempotent :
    (∀ v : Value,
        remove_omit_from_dict (remove_omit_from_dict v) = remove_omit_from_dict v) ∧
    remove_omit_from_dict
      (.dict (.cons "a" (.str "x")
        (.cons "b" (.str omit_placeholder)
          (.cons "c" (.dict (.cons "d" (.str "y")
                             (.cons "e" (.str omit_placeholder) .nil)))
            (.cons "f" (.list (.cons (.int 1)
                               (.cons (.str omit_placeholder)
                                 (.cons (.int 3) .nil)))) .nil))))) =
    .dict (.cons "a" (.str "x")
      (.cons "c" (.dict (.cons "d" (.str "y") .nil))
        (.cons "f" (.list (.cons (.int 1) (.cons (.int 3) .nil))) .nil))) :=
  ⟨remove_omit_idem, by decide⟩

/- Association-list lemmas for the merge_dicts analysis. -/

theorem dictLookup_dictSet_self (m : VDict) (k : String) (v : Value) :
    dictLookup (dictSet m k v) k = some v := by
  induction m using vdictInduction with
  | nil => simp [dictSet, dictLookup]
  | cons k' v' tl ih =>
      by_cases h : k' = k
      · subst h; simp [dictSet, dictLookup]
      · simp [dictSet, dictLookup, h, ih]

theorem dictLookup_dictSet_ne (m : VDict) (k k' : String) (v : Value) (h : k' ≠ k) :
    dictLookup (dictSet m k' v) k = dictLookup m k := by
  induction m using vdictInduction with
  | nil => simp [dictSet, dictLookup, h]
  | cons k1 v1 tl ih =>
      by_cases h1 : k1 = k'
      · subst h1; simp [dictSet, dictLookup, h]
      · simp [dictSet, dictLookup, h1, ih]

theorem dictLookup_dictUpdateAll_not_mem (ys : VDict) (x : VDict) (k : String)
    (h : k ∉ dictKeys ys) :
    dictLookup (dictUpdateAll x ys) k = dictLookup x k := by
  induction ys using vdictInduction generalizing x with
  | nil => rfl
  | cons k1 v1 tl ih =>
      simp only [dictKeys, List.mem_cons, not_or] at h
      rw [dictUpdateAll, ih _ h.2, dictLookup_dictSet_ne _ _ _ _ (fun hc => h.1 hc.symm)]

theorem dictLookup_dictUpdateAll_mem (ys : VDict) (x : VDict) (k : String) (w : Value)
    (hnd : (dictKeys ys).Nodup) (h : dictLookup ys k = some w) :
    dictLookup (dictUpdateAll x ys) k = some w := by
  induction ys using vdictInduction generalizing x with
  | nil => simp [dictLookup] at h
  | cons k1 v1 tl ih =>
      rw [dictKeys, List.nodup_cons] at hnd
      by_cases hk : k1 = k
      · subst hk
        rw [dictLookup, if_pos rfl] at h
        rw [dictUpdateAll, dictLookup_dictUpdateAll_not_mem tl _ _ hnd.1,
          dictLookup_dictSet_self]
        exact h
      · rw [dictLookup, if_neg hk] at h
        rw [dictUpdateAll]
        exact ih _ hnd.2 h

theorem dictKeys_mem_of_entry (xs : VDict) (k : String) (v : Value)
    (h : (k, v) ∈ dictEntries xs) : k ∈ dictKeys xs := by
  induction xs using vdictInduction with
  | nil => simp [dictEntries] at h
  | cons k1 v1 tl ih =>
      simp only [dictEntries, List.mem_cons, Prod.mk.injEq] at h
      rcases h with ⟨hk, _⟩ | h
      · simp [dictKeys, hk]
      · simp [dictKeys, ih h]

theorem dictEntry_unique_of_nodup (xs : VDict) (k : String) (v v' : Value)
    (hnd : (dictKeys xs).Nodup) (hl : dictLookup xs k = some v)
    (h : (k, v') ∈ dictEntries xs) : v' = v := by
  induction xs using vdictInduction with
  | nil => simp [dictEntries] at h
  | cons k1 v1 tl ih =>
      rw [dictKeys, List.nodup_cons] at hnd
      simp only [dictEntries, List.mem_cons, Prod.mk.injEq] at h
      by_cases hk : k1 = k
      · subst hk
        rw [dictLookup, if_pos rfl] at hl
        rcases h with ⟨_, hv⟩ | h
        · rw [hv]; exact Option.some.inj hl
        · exact absurd (dictKeys_mem_of_entry tl k1 v' h) hnd.1
      · rw [dictLookup, if_neg hk] at hl
        rcases h with ⟨hk1, _⟩ | h
        · exact absurd hk1.symm hk
        · exact ih hnd.2 hl h

/- At a key all of whose bindings in xs are non-mappings, the fixup
   loop of merge_dicts never rewrites the accumulator. -/
theorem mergeFix_lookup_no_dict_at_key (xs : VDict) (k : String)
    (hk : ∀ v, (k, v) ∈ dictEntries xs → isDictV v = false) :
    ∀ (ys m m' : VDict), mergeFix xs ys m = .ok m' →
      dictLookup m' k = dictLookup m k := by
  induction xs using vdictInduction with
  | nil =>
      intro ys m m' h
      rw [mergeFix] at h
      injection h with h
      rw [h]
  | cons k1 v1 tl ih =>
      intro ys m m' h
      have hk1 : ∀ v, (k, v) ∈ dictEntries tl → isDictV v = false := fun v hv =>
        hk v (by rw [dictEntries]; exact List.mem_cons_of_mem _ hv)
      rw [mergeFix] at h
      by_cases hd : isDictV v1 = true
      · have hkk : k1 ≠ k := by
          intro hc; subst hc
          have hfalse := hk v1 (by rw [dictEntries]; exact List.mem_cons_self _ _)
          rw [hfalse] at hd
          exact Bool.noConfusion hd
        rw [if_pos hd] at h
        cases hys : dictLookup ys k1 with
        | none => simp only [hys] at h; exact ih hk1 ys m m' h
        | some w =>
            simp only [hys] at h
            cases hm : merge_dicts v1 w with
            | error e => simp only [hm] at h; exact Except.noConfusion h
            | ok mv =>
                simp only [hm] at h
                rw [ih hk1 ys _ m' h, dictLookup_dictSet_ne _ _ _ _ hkk]
      · rw [if_neg hd] at h
        exact ih hk1 ys m m' h

theorem merge_dicts_dict_null (d : VDict) :
    merge_dicts (.dict d) .null = .ok (.dict d) := rfl

theorem merge_dicts_dict_scalar (d : VDict) (w : Value)
    (hw : isDictV w = false) (hn : w ≠ .null) :
    merge_dicts (.dict d) w = .error "TypeError: argument after ** must be a mapping" := by
  cases w with
  | null => exact absurd rfl hn
  | str s => rfl
  | int n => rfl
  | bool b => rfl
  | omitObj => rfl
  | list l => rfl
  | dict d2 => simp [isDictV] at hw

/- When the binding of k in xs is a mapping and the submerge with the
   binding of k in ys succeeds with value mv, the fixup loop rewrites
   the accumulator at k to mv. -/
theorem mergeFix_lookup_dict_merge (xs : VDict) (k : String) (v w mv : Value)
    (hnd : (dictKeys xs).Nodup) (hv : dictLookup xs k = some v)
    (hdv : isDictV v = true) :
    ∀ (ys m m' : VDict), dictLookup ys k = some w → merge_dicts v w = .ok mv →
      mergeFix xs ys m = .ok m' → dictLookup m' k = some mv := by
  induction xs using vdictInduction with
  | nil => simp [dictLookup] at hv
  | cons k1 v1 tl ih =>
      intro ys m m' hw hm h
      rw [dictKeys, List.nodup_cons] at hnd
      rw [mergeFix] at h
      by_cases hk : k1 = k
      · subst hk
        rw [dictLookup, if_pos rfl] at hv
        have hv1 : v1 = v := Option.some.inj hv
        subst hv1
        rw [if_pos hdv] at h
        simp only [hw, hm] at h
        have hnok : ∀ v', (k1, v') ∈ dictEntries tl → isDictV v' = false := fun v' hv' =>
          absurd (dictKeys_mem_of_entry tl k1 v' hv') hnd.1
        rw [mergeFix_lookup_no_dict_at_key tl k1 hnok ys _ m' h, dictLookup_dictSet_self]
      · rw [dictLookup, if_neg hk] at hv
        by_cases hd1 : isDictV v1 = true
        · rw [if_pos hd1] at h
          cases hys : dictLookup ys k1 with
          | none =>
              simp only [hys] at h
              exact ih hnd.2 hv ys m m' hw hm h
          | some w1 =>
              simp only [hys] at h
              cases hm1 : merge_dicts v1 w1 with
              | error e => simp only [hm1] at h; exact Except.noConfusion h
              | ok mv1 =>
                  simp only [hm1] at h
                  exact ih hnd.2 hv ys _ m' hw hm h
        · rw [if_neg hd1] at h
          exact ih hnd.2 hv ys m m' hw hm h

theorem isDictV_dict_shape (v : Value) (h : isDictV v = true) : ∃ d, v = .dict d := by
  cases v with
  | dict d => exact ⟨d, rfl⟩
  | null => simp [isDictV] at h
  | str s => simp [isDictV] at h
  | int n => simp [isDictV] at h
  | bool b => simp [isDictV] at h
  | omitObj => simp [isDictV] at h
  | list l => simp [isDictV] at h

/- When the binding of k in xs is a mapping and the binding of k in ys
   is a non-mapping other than None, the fixup loop fails. -/
theorem mergeFix_error_dict_vs_scalar (xs : VDict) (k : String) (v w : Value)
    (hv : dictLookup xs k = some v) (hdv : isDictV v = true)
    (hw : isDictV w = false) (hn : w ≠ .null) :
    ∀ (ys m : VDict), dictLookup ys k = some w →
      ∃ e, mergeFix xs ys m = .error e := by
  induction xs using vdictInduction with
  | nil => simp [dictLookup] at hv
  | cons k1 v1 tl ih =>
      intro ys m hys
      rw [mergeFix]
      by_cases hk : k1 = k
      · subst hk
        rw [dictLookup, if_pos rfl] at hv
        have hv1 : v1 = v := Option.some.inj hv
        subst hv1
        rw [if_pos hdv]
        simp only [hys]
        rcases isDictV_dict_shape v1 hdv with ⟨d, rfl⟩
        simp only [merge_dicts_dict_scalar d w hw hn]
        exact ⟨_, rfl⟩
      · rw [dictLookup, if_neg hk] at hv
        by_cases hd1 : isDictV v1 = true
        · rw [if_pos hd1]
          cases hys1 : dictLookup ys k1 with
          | none => simp only [hys1]; exact ih hv ys m hys
          | some w1 =>
              simp only [hys1]
              cases hm1 : merge_dicts v1 w1 with
              | error e => simp only [hm1]; exact ⟨e, rfl⟩
              | ok mv1 => simp only [hm1]; exact ih hv ys (dictSet m k1 mv1) hys
        · rw [if_neg hd1]
          exact ih hv ys m hys

theorem mergeVDicts_shape (xs ys m : VDict)
    (h : merge_dicts (.dict xs) (.dict ys) = .ok (.dict m)) :
    mergeFix xs ys (dictUpdateAll xs ys) = .ok m := by
  have hdef : merge_dicts (.dict xs) (.dict ys) =
      (mergeFix xs ys (dictUpdateAll xs ys)).map .dict := rfl
  rw [hdef] at h
  cases hfix : mergeFix xs ys (dictUpdateAll xs ys) with
  | error e => rw [hfix] at h; exact Except.noConfusion h
  | ok m2 =>
      rw [hfix] at h
      simp only [Except.map] at h
      injection h with h
      cases h
      rfl

/-- Claim C2 (corrected): merge_dicts recursively deep-merges exactly
those key collisions where the value in A is a mapping; a collision on
a non-mapping A-value takes B's value wholesale; a mapping A-value
colliding with a mapping B-value deep-merges (the result at that key
is the recursive merge); a mapping A-value colliding with None keeps
A's mapping; and a mapping A-value colliding with any other
non-mapping B-value makes the merge raise TypeError instead of taking
B's value (this last case refutes the claim as stated, see the
counterexample).  The spec example merge on d mapping to x:1, y:2
overlaid by d mapping to x:9 yields d mapping to x:9, y:2. -/
theorem merge_dicts_collision_semantics :
    (∀ (xs ys m : VDict) (k : String) (v w : Value),
      (dictKeys xs).Nodup → (dictKeys ys).Nodup →
      dictLookup xs k = some v → dictLookup ys k = some w →
      isDictV v = false →
      merge_dicts (.dict xs) (.dict ys) = .ok (.dict m) →
        dictLookup m k = some w) ∧
    (∀ (xs ys m : VDict) (k : String) (v w mv : Value),
      (dictKeys xs).Nodup →
      dictLookup xs k = some v → dictLookup ys k = some w →
      isDictV v = true → merge_dicts v w = .ok mv →
      merge_dicts (.dict xs) (.dict ys) = .ok (.dict m) →
        dictLookup m k = some mv) ∧
    (∀ d : VDict, merge_dicts (.dict d) .null = .ok (.dict d)) ∧
    (∀ (xs ys : VDict) (k : String) (v w : Value),
      dictLookup xs k = some v → dictLookup ys k = some w →
      isDictV v = true → isDictV w = false → w ≠ .null →
      ∃ e, merge_dicts (.dict xs) (.dict ys) = .error e) ∧
    merge_dicts
      (.dict (.cons "d" (.dict (.cons "x" (.int 1) (.cons "y" (.int 2) .nil))) .nil))
      (.dict (.cons "d" (.dict (.cons "x" (.int 9) .nil)) .nil)) =
      .ok (.dict (.cons "d"
        (.dict (.cons "x" (.int 9) (.cons "y" (.int 2) .nil))) .nil)) := by
  refine ⟨?_, ?_, merge_dicts_dict_null, ?_, rfl⟩
  · intro xs ys m k v w hndx hndy hv hw hdv h
    have hfix := mergeVDicts_shape xs ys m h
    have hnok : ∀ v', (k, v') ∈ dictEntries xs → isDictV v' = false := fun v' hv' => by
      rw [dictEntry_unique_of_nodup xs k v v' hndx hv hv']
      exact hdv
    rw [mergeFix_lookup_no_dict_at_key xs k hnok ys _ m hfix]
    exact dictLookup_dictUpdateAll_mem ys xs k w hndy hw
  · intro xs ys m k v w mv hndx hv hw hdv hm h
    exact mergeFix_lookup_dict_merge xs k v w mv hndx hv hdv ys _ m hw hm
      (mergeVDicts_shape xs ys m h)
  · intro xs ys k v w hv hw hdv hwf hn
    rcases mergeFix_error_dict_vs_scalar xs k v w hv hdv hwf hn ys
        (dictUpdateAll xs ys) hw with ⟨e, he⟩
    refine ⟨e, ?_⟩
    have hdef : merge_dicts (.dict xs) (.dict ys) =
        (mergeFix xs ys (dictUpdateAll xs ys)).map .dict := rfl
    rw [hdef, he]
    rfl

/-- Claim C2 counterexample: at A with d mapping to x:1 and B with d
mapping to 5 (a mapping in A overlaid by a non-mapping in B), the
claim predicts the result takes B's value wholesale, i.e. d maps to 5;
the code instead raises TypeError (dict(x, **y) inside the recursive
call merge_dicts(A.d, 5) rejects the non-mapping). -/
theorem merge_dicts_scalar_over_dict_counterexample :
    merge_dicts (.dict (.cons "d" (.dict (.cons "x" (.int 1) .nil)) .nil))
                (.dict (.cons "d" (.int 5) .nil)) =
      .error "TypeError: argument after ** must be a mapping" ∧
    merge_dicts (.dict (.cons "d" (.dict (.cons "x" (.int 1) .nil)) .nil))
                (.dict (.cons "d" (.int 5) .nil)) ≠
      .ok (.dict (.cons "d" (.int 5) .nil)) := by
  refine ⟨rfl, ?_⟩
  intro hc
  have h2 : (Except.error "TypeError: argument after ** must be a mapping" :
      Except String Value) = .ok (.dict (.cons "d" (.int 5) .nil)) := hc
  exact Except.noConfusion h2

/-- Claim C2 witness: the amended collision semantics applied at the
concrete pair A = (a:1, d:(x:1, y:2)), B = (a:2, d:(x:9)). -/
theorem merge_dicts_collision_semantics_witness :
    merge_dicts
      (.dict (.cons "a" (.int 1)
        (.cons "d" (.dict (.cons "x" (.int 1) (.cons "y" (.int 2) .nil))) .nil)))
      (.dict (.cons "a" (.int 2)
        (.cons "d" (.dict (.cons "x" (.int 9) .nil)) .nil))) =
      .ok (.dict (.cons "a" (.int 2)
        (.cons "d" (.dict (.cons "x" (.int 9) (.cons "y" (.int 2) .nil))) .nil))) ∧
    dictLookup (.cons "a" (.int 2)
        (.cons "d" (.dict (.cons "x" (.int 9) (.cons "y" (.int 2) .nil))) .nil)) "a" =
      some (.int 2) ∧
    dictLookup (.cons "a" (.int 2)
        (.cons "d" (.dict (.cons "x" (.int 9) (.cons "y" (.int 2) .nil))) .nil)) "d" =
      some (.dict (.cons "x" (.int 9) (.cons "y" (.int 2) .nil))) :=
  ⟨rfl,
   merge_dicts_collision_semantics.1
     (.cons "a" (.int 1)
        (.cons "d" (.dict (.cons "x" (.int 1) (.cons "y" (.int 2) .nil))) .nil))
     (.cons "a" (.int 2) (.cons "d" (.dict (.cons "x" (.int 9) .nil)) .nil))
     (.cons "a" (.int 2)
        (.cons "d" (.dict (.cons "x" (.int 9) (.cons "y" (.int 2) .nil))) .nil))
     "a" (.int 1) (.int 2) (by decide) (by decide) rfl rfl rfl rfl,
   merge_dicts_collision_semantics.2.1
     (.cons "a" (.int 1)
        (.cons "d" (.dict (.cons "x" (.int 1) (.cons "y" (.int 2) .nil))) .nil))
     (.cons "a" (.int 2) (.cons "d" (.dict (.cons "x" (.int 9) .nil)) .nil))
     (.cons "a" (.int 2)
        (.cons "d" (.dict (.cons "x" (.int 9) (.cons "y" (.int 2) .nil))) .nil))
     "d" (.dict (.cons "x" (.int 1) (.cons "y" (.int 2) .nil)))
     (.dict (.cons "x" (.int 9) .nil))
     (.dict (.cons "x" (.int 9) (.cons "y" (.int 2) .nil)))
     (by decide) rfl rfl rfl rfl rfl⟩

/-- Claim C3 (code_bug): the claim states that when render() finds the
resolved source path differing from the bound entry's path, the unit
unsubscribes from the old entry, binds and subscribes to the new one,
and renders from the newly bound file.  In the code the very first
statement of that re-binding branch, self._file -= self.render,
raises TypeError (CachedFile defines neither __isub__ nor __sub__),
so the property file raises instead of re-binding, and render()
catches the exception and reports failure: at a unit bound to
/m/b1.yml whose source path now resolves to /m/b2.yml, the file
property raises TypeError and render() returns False. -/
theorem template_file_rebind_raises :
    Template_file extRebind (CachedFile_read []) rebindTempl =
      .error "TypeError: unsupported operand types for -=: CachedFile and method" ∧
    (Template_render extRebind [] rebindTempl).1 = false :=
  ⟨rfl, rfl⟩

/- Generic association-list lemmas for the disk model. -/

theorem assocFind_assocSet_self {κ α : Type} [DecidableEq κ]
    (l : List (κ × α)) (k : κ) (a : α) :
    assocFind (assocSet l k a) k = some a := by
  induction l with
  | nil => simp [assocSet, assocFind]
  | cons p tl ih =>
      by_cases h : p.1 = k
      · rw [show (p :: tl : List (κ × α)) = (p.1, p.2) :: tl from rfl]
        rw [assocSet]
        rw [if_pos h]
        rw [assocFind, if_pos h]
      · rw [show (p :: tl : List (κ × α)) = (p.1, p.2) :: tl from rfl]
        rw [assocSet, if_neg h, assocFind, if_neg h]
        exact ih

theorem assocFind_assocSet_ne {κ α : Type} [DecidableEq κ]
    (l : List (κ × α)) (k k' : κ) (a : α) (h : k' ≠ k) :
    assocFind (assocSet l k' a) k = assocFind l k := by
  induction l with
  | nil => simp [assocSet, assocFind, h]
  | cons p tl ih =>
      by_cases h1 : p.1 = k'
      · have hne : p.1 ≠ k := by rw [h1]; exact h
        rw [show (p :: tl : List (κ × α)) = (p.1, p.2) :: tl from rfl]
        rw [assocSet, if_pos h1, assocFind, assocFind, if_neg hne, if_neg hne]
      · rw [show (p :: tl : List (κ × α)) = (p.1, p.2) :: tl from rfl]
        rw [assocSet, if_neg h1, assocFind, assocFind]
        by_cases h2 : p.1 = k
        · rw [if_pos h2, if_pos h2]
        · rw [if_neg h2, if_neg h2]
          exact ih

/-- Claim C8 (corrected): write(content, path, overwrite) fails with
DestinationExists (IOError, destination already exists) when path is
an existing regular file and overwrite is false; fails with
DestinationConflict (IOError, destination is not a file) when path
exists and is not a file; and overwriting an existing file with the
flag replaces its whole content.  The claim's unconditional otherwise
clause however only holds when the parent does not exist as a
non-directory: on a fresh path the write succeeds — with no parent
component, under an existing parent directory, or creating a missing
parent entry — but a parent that exists as a regular file makes
os.makedirs raise FileExistsError instead (see the counterexample). -/
theorem cached_file_write_semantics :
    (∀ (disk : Disk) (content path c0 : String),
      assocFind disk path = some (.file c0) →
      CachedFile_write disk content path false =
        .error ("Destination already exists. Use -f flag to overwrite the file: " ++ path)) ∧
    (∀ (disk : Disk) (content path : String) (force : Bool),
      assocFind disk path = some .dir →
      CachedFile_write disk content path force =
        .error ("Destination exists and is not a file: " ++ path)) ∧
    (∀ (disk : Disk) (content path c0 : String),
      assocFind disk path = some (.file c0) →
      ∃ disk2, CachedFile_write disk content path true = .ok disk2 ∧
        assocFind disk2 path = some (.file content)) ∧
    (∀ (disk : Disk) (content path : String) (force : Bool),
      assocFind disk path = none → os_path_dirname path = "" →
      ∃ disk2, CachedFile_write disk content path force = .ok disk2 ∧
        assocFind disk2 path = some (.file content)) ∧
    (∀ (disk : Disk) (content path : String) (force : Bool),
      assocFind disk path = none →
      assocFind disk (os_path_dirname path) = some .dir →
      ∃ disk2, CachedFile_write disk content path force = .ok disk2 ∧
        assocFind disk2 path = some (.file content) ∧
        assocFind disk2 (os_path_dirname path) = some .dir) ∧
    (∀ (disk : Disk) (content path : String) (force : Bool),
      assocFind disk path = none → os_path_dirname path ≠ "" →
      assocFind disk (os_path_dirname path) = none →
      ∃ disk2, CachedFile_write disk content path force = .ok disk2 ∧
        assocFind disk2 path = some (.file content) ∧
        (os_path_dirname path ≠ path →
          assocFind disk2 (os_path_dirname path) = some .dir)) ∧
    (∀ (disk : Disk) (content path c0 : String) (force : Bool),
      assocFind disk path = none → os_path_dirname path ≠ "" →
      assocFind disk (os_path_dirname path) = some (.file c0) →
      CachedFile_write disk content path force =
        .error ("FileExistsError: [Errno 17] File exists: " ++
          os_path_dirname path)) := by
  refine ⟨?_, ?_, ?_, ?_, ?_, ?_, ?_⟩
  · intro disk content path c0 h
    rw [CachedFile_write, h]
    rfl
  · intro disk content path force h
    rw [CachedFile_write, h]
  · intro disk content path c0 h
    rw [CachedFile_write, h]
    exact ⟨_, rfl, assocFind_assocSet_self disk path (FsNode.file content)⟩
  · intro disk content path force h hd
    rw [CachedFile_write, h, if_pos hd]
    exact ⟨_, rfl, assocFind_assocSet_self disk path (FsNode.file content)⟩
  · intro disk content path force h hpar
    have hnep : os_path_dirname path ≠ path := by
      intro hc
      rw [hc, h] at hpar
      exact Option.noConfusion hpar
    rw [CachedFile_write, h]
    by_cases hd : os_path_dirname path = ""
    · rw [if_pos hd]
      refine ⟨_, rfl, assocFind_assocSet_self disk path (FsNode.file content), ?_⟩
      rw [assocFind_assocSet_ne _ _ _ _ (fun hc => hnep hc.symm)]
      exact hpar
    · rw [if_neg hd]
      simp only [hpar]
      refine ⟨_, rfl, assocFind_assocSet_self disk path (FsNode.file content), ?_⟩
      rw [assocFind_assocSet_ne _ _ _ _ (fun hc => hnep hc.symm)]
      exact hpar
  · intro disk content path force h hd hpar
    rw [CachedFile_write, h, if_neg hd]
    simp only [hpar]
    refine ⟨_, rfl, assocFind_assocSet_self _ path (FsNode.file content), ?_⟩
    intro hnp
    rw [assocFind_assocSet_ne _ _ _ _ (fun hc => hnp hc.symm),
      assocFind_assocSet_self]
  · intro disk content path c0 force h hd hpar
    rw [CachedFile_write, h, if_neg hd]
    simp only [hpar]

/-- Claim C8 counterexample: writing to the fresh path /m/b.txt while
/m exists as a regular file: the claim predicts the write creates the
missing parent directories and stores the content, but os.makedirs
raises FileExistsError (exist_ok only tolerates an existing
directory), so the write fails and yields no disk. -/
theorem write_parent_is_file_counterexample :
    CachedFile_write [("/m", FsNode.file "f")] "data" "/m/b.txt" false =
      .error ("FileExistsError: [Errno 17] File exists: " ++ "/m") ∧
    (CachedFile_write [("/m", FsNode.file "f")] "data" "/m/b.txt" false).toOption
      = none :=
  ⟨rfl, rfl⟩

/-- Claim C8 witness: the amended write semantics on a concrete disk:
an un-forced write onto the existing file /m/a.txt fails with the
destination-exists error; a write to the fresh path /m/sub/b.txt with
absent parent succeeds; and a write under the existing directory /d
succeeds. -/
theorem cached_file_write_semantics_witness :
    CachedFile_write [("/m/a.txt", .file "old")] "new" "/m/a.txt" false =
      .error ("Destination already exists. Use -f flag to overwrite the file: " ++ "/m/a.txt") ∧
    (∃ disk2 : Disk,
      CachedFile_write [("/m/a.txt", .file "old")] "data" "/m/sub/b.txt" false =
        .ok disk2 ∧
      assocFind disk2 "/m/sub/b.txt" = some (.file "data")) ∧
    (∃ disk3 : Disk,
      CachedFile_write [("/d", FsNode.dir)] "data" "/d/c.txt" false =
        .ok disk3 ∧
      assocFind disk3 "/d/c.txt" = some (.file "data")) :=
  ⟨cached_file_write_semantics.1 [("/m/a.txt", .file "old")] "new" "/m/a.txt" "old" rfl,
   match cached_file_write_semantics.2.2.2.2.2.1 [("/m/a.txt", .file "old")]
       "data" "/m/sub/b.txt" false rfl (by decide) rfl with
   | ⟨d2, h1, h2, _⟩ => ⟨d2, h1, h2⟩,
   match cached_file_write_semantics.2.2.2.2.1 [("/d", FsNode.dir)]
       "data" "/d/c.txt" false rfl rfl with
   | ⟨d3, h1, h2, _⟩ => ⟨d3, h1, h2⟩⟩

/-- Claim C10 (confirmed): a variable chain to which no element was
ever added raises IndexError from get_context instead of returning an
empty context; consequently a manifest declaring a unit with no
global or per-unit vars and no include_vars fails while constructing
the unit (the Template constructor resolves its source path against
the empty chain), and the manifest's processing reports failure. -/
theorem empty_chain_get_context_raises :
    (∀ (E : Ext) (read : String → Except String String),
      chain_get_context E read [] = .error "IndexError: list index out of range") ∧
    (Definition_parse extNoVars noVarsDisk noVarsDef []).result =
      .error "IndexError: list index out of range" ∧
    (Definition_process extNoVars noVarsDisk noVarsDef []).1 = false :=
  ⟨fun _ _ => rfl, rfl, rfl⟩

/- Dispatch outcome of a file-sourced chain element: it recomputes
   from the freshly read content and forwards the chain event (one
   render of its unit) exactly when the merged-context fingerprint
   moved. -/
theorem notify_sub_elem_count (E : Ext) (newC p : String)
    (cache hsh : Option VDict) (d c : VDict)
    (hload : load_yaml E newC = .ok (.dict d))
    (hrender : render_dict_and_add_to_context E d .nil = .ok c) :
    notify_sub E newC (.elem ⟨.file p, cache, hsh⟩) =
      .ok (.elem ⟨.file p, some c, some c⟩, if some c = hsh then 0 else 1) := by
  simp only [notify_sub, elemOnChange, elemCreateContext, List.get?, hload, hrender]
  by_cases h : some c = hsh
  · simp [h]
  · simp [h]

/-- Claim C5 (corrected): rewriting a watched file with content whose
fingerprint equals the cached one notifies no subscriber and triggers
no re-render; rewriting with a different fingerprint notifies every
subscriber exactly once, and then a unit subscribed through its
template source re-renders exactly once, while a unit subscribed
through a variable-chain element re-renders exactly once only if the
recomputed merged-context fingerprint differs from the memoized one,
and zero times otherwise (the element suppresses the chain event) —
the unconditional exactly-once of the original claim fails, see the
counterexample. -/
theorem file_change_notification_semantics :
    (∀ (E : Ext) (c : String) (subs : List FileSub),
      CachedFile_on_change E c c subs = .ok (subs.map (fun s => (s, 0)))) ∧
    (∀ (E : Ext) (oldC newC : String) (subs : List FileSub) (d c : VDict),
      oldC ≠ newC →
      load_yaml E newC = .ok (.dict d) →
      render_dict_and_add_to_context E d .nil = .ok c →
      (∀ e, FileSub.elem e ∈ subs → ∃ p, e.source = .file p) →
      CachedFile_on_change E oldC newC subs = .ok (subs.map (c5Outcome c))) := by
  constructor
  · intro E c subs
    simp [CachedFile_on_change]
  · intro E oldC newC subs d c hne hload hrender hfile
    rw [CachedFile_on_change, if_neg hne]
    induction subs with
    | nil => rfl
    | cons s tl ih =>
        have htl : ∀ e, FileSub.elem e ∈ tl → ∃ p, e.source = .file p := fun e he =>
          hfile e (List.mem_cons_of_mem _ he)
        rw [notifyAll]
        cases s with
        | render =>
            rw [show notify_sub E newC .render = .ok (.render, 1) from rfl]
            rw [ih htl]
            rfl
        | elem e =>
            rcases hfile e (List.mem_cons_self _ _) with ⟨p, hp⟩
            rcases e with ⟨src, cache, hsh⟩
            cases hp
            rw [notify_sub_elem_count E newC p cache hsh d c hload hrender]
            rw [ih htl]
            simp [c5Outcome]

/-- Claim C5 counterexample: rewriting the watched file /m/vars.yml
from a: 1 to a: 1 # c changes the content fingerprint, yet the unit
depending on it through a variable-chain element is re-rendered zero
times and not exactly once: the element recomputes the same merged
context a: 1 and suppresses the chain event. -/
theorem changed_fingerprint_zero_rerender_counterexample :
    CachedFile_on_change extComment "a: 1" "a: 1 # c"
      [.elem ⟨.file "/m/vars.yml", some ctxA1, some ctxA1⟩] =
      .ok [(.elem ⟨.file "/m/vars.yml", some ctxA1, some ctxA1⟩, 0)] ∧
    (0 : Nat) ≠ 1 :=
  ⟨rfl, by decide⟩

/-- Claim C5 witness: on a genuine variable change (a: 1 rewritten to
a: 9) a directly subscribed unit and a chain-subscribed unit each
re-render exactly once. -/
theorem file_change_notification_semantics_witness :
    CachedFile_on_change extStale "a: 1" "a: 9"
      [.render, .elem ⟨.file "/m/vars.yml", some ctxA1, some ctxA1⟩] =
      .ok [(.render, 1),
           (.elem ⟨.file "/m/vars.yml", some ctxA9, some ctxA9⟩, 1)] :=
  file_change_notification_semantics.2 extStale "a: 1" "a: 9"
    [.render, .elem ⟨.file "/m/vars.yml", some ctxA1, some ctxA1⟩]
    (.cons "a" (.int 9) .nil) ctxA9
    (by decide) rfl rfl
    (by
      intro e he
      simp only [List.mem_cons, List.not_mem_nil, or_false] at he
      rcases he with he | he
      · exact FileSub.noConfusion he
      · cases FileSub.elem.inj he
        exact ⟨"/m/vars.yml", rfl⟩)

/-- Claim C7 (confirmed): Template.render returns True exactly when
its body succeeded and False exactly when some step failed — the
failure is caught at the render boundary and reported as False rather
than raised; and the render pass attempts every changed unit in
order, regardless of earlier failures (sibling units still render),
reporting overall success exactly when no attempted unit failed. -/
theorem render_failure_isolation :
    (∀ (E : Ext) (disk : Disk) (t : Templ),
      ((Template_render E disk t).1 = true ↔
        ∃ r, Template_render_body E disk t = .ok r) ∧
      ((Template_render E disk t).1 = false ↔
        ∃ e, Template_render_body E disk t = .error e)) ∧
    (∀ (E : Ext) (templates : List (UnitConfig × Templ)) (disk : Disk)
        (changed : List UnitConfig),
      (∀ h ∈ changed, (assocFind templates h).isSome = true) →
      ((render_templates E templates disk changed).2.2.2.map Prod.fst = changed ∧
       ((render_templates E templates disk changed).1 = true ↔
         ∀ p ∈ (render_templates E templates disk changed).2.2.2, p.2 = true))) := by
  constructor
  · intro E disk t
    cases hb : Template_render_body E disk t with
    | ok r =>
        rw [Template_render, hb]
        exact ⟨⟨fun _ => ⟨r, rfl⟩, fun _ => rfl⟩,
               ⟨fun hc => Bool.noConfusion hc,
                fun he => by
                  rcases he with ⟨e, he⟩
                  exact Except.noConfusion he⟩⟩
    | error e =>
        rw [Template_render, hb]
        exact ⟨⟨fun hc => Bool.noConfusion hc,
                fun hr => by
                  rcases hr with ⟨r, hr⟩
                  exact Except.noConfusion hr⟩,
               ⟨fun _ => ⟨e, rfl⟩, fun _ => rfl⟩⟩
  · intro E templates disk changed
    induction changed generalizing templates disk with
    | nil =>
        intro _
        exact ⟨rfl, by simp [render_templates]⟩
    | cons h tl ih =>
        intro hfind
        have hsome := hfind h (List.mem_cons_self _ _)
        cases hft : assocFind templates h with
        | none => rw [hft] at hsome; exact Bool.noConfusion hsome
        | some t =>
            have hfind1 : ∀ h' ∈ tl,
                (assocFind (assocSet templates h
                  (Template_render E disk t).2.1) h').isSome = true := by
              intro h' hh'
              by_cases hcase : h' = h
              · subst hcase
                rw [assocFind_assocSet_self]
                rfl
              · rw [assocFind_assocSet_ne _ _ _ _
                  (fun hc => hcase hc.symm)]
                exact hfind h' (List.mem_cons_of_mem _ hh')
            have ihc := ih _ (Template_render E disk t).2.2 hfind1
            simp only [render_templates, hft]
            rcases hTR : Template_render E disk t with ⟨r, t1, disk1⟩
            rw [hTR] at ihc
            simp only []
            rcases hRT : render_templates E (assocSet templates h t1) disk1 tl with
              ⟨allOk, templates2, disk2, tr⟩
            rw [hRT] at ihc
            simp only [] at ihc
            refine ⟨?_, ?_⟩
            · simp only [List.map_cons, ihc.1]
            · rw [Bool.and_eq_true]
              constructor
              · intro hc p hp
                rcases List.mem_cons.mp hp with hp | hp
                · rw [hp]; exact hc.1
                · exact (ihc.2.mp hc.2) p hp
              · intro hall
                refine ⟨hall (h, r) (List.mem_cons_self _ _), ihc.2.mpr ?_⟩
                intro p hp
                exact hall p (List.mem_cons_of_mem _ hp)

/-- Claim C7 witness: a render pass over two units whose first render
fails (missing source file) and whose second succeeds: both units are
attempted in order, the trace records one failure and one success,
and the overall result is failure. -/
theorem render_failure_isolation_witness :
    ((render_templates extMix mixTemplates mixDisk [mixCfg1, mixCfg2]).2.2.2.map
        Prod.fst = [mixCfg1, mixCfg2]) ∧
    (render_templates extMix mixTemplates mixDisk [mixCfg1, mixCfg2]).2.2.2 =
      [(mixCfg1, false), (mixCfg2, true)] ∧
    (render_templates extMix mixTemplates mixDisk [mixCfg1, mixCfg2]).1 = false :=
  ⟨(render_failure_isolation.2 extMix mixTemplates mixDisk [mixCfg1, mixCfg2]
      (by decide)).1,
   rfl, rfl⟩

/-- Claim C4 (corrected): a manifest whose parse fails aborts that
manifest's processing entirely — process returns False, the error is
reported exactly once, no render pass runs (the disk is untouched)
and the previously installed unit mapping is unchanged; however the
pending-render state is not unchanged: _parse resets
changed_templates to [] before reading the manifest (and entries
appended before the failure stay), so the claim's last clause fails —
see the counterexample. -/
theorem parse_failure_aborts_manifest :
    ∀ (E : Ext) (disk : Disk) (st : DefSt) (reg : Registry) (e : String),
      (Definition_parse E disk st reg).result = .error e →
      (Definition_process E disk st reg).1 = false ∧
      (Definition_process E disk st reg).2.1.templates = st.templates ∧
      (Definition_process E disk st reg).2.2.2.1 = disk ∧
      (Definition_process E disk st reg).2.2.2.2 =
        ["Error loading options from definition file: " ++ e] := by
  intro E disk st reg e he
  simp [Definition_process, he]

/-- Claim C4 counterexample: processing a manifest that fails to parse
(missing templates key) with one pending render from the previous
parse clears the pending-render list — the claim predicts the
pending-render state is unchanged by the failed parse, but it changes
from the singleton mixCfg1 to []. -/
theorem parse_failure_resets_pending_counterexample :
    (Definition_process extBad badDisk badDef []).2.1.changed_templates = [] ∧
    badDef.changed_templates = [mixCfg1] ∧
    ([] : List UnitConfig) ≠ [mixCfg1] ∧
    (Definition_process extBad badDisk badDef []).2.1.templates = badDef.templates :=
  ⟨rfl, rfl, by decide, rfl⟩

/-- Claim C4 witness: the amended behavior at the concrete failing
manifest: process reports failure once, with the unit mapping and the
disk untouched. -/
theorem parse_failure_aborts_manifest_witness :
    (Definition_process extBad badDisk badDef []).1 = false ∧
    (Definition_process extBad badDisk badDef []).2.1.templates = badDef.templates ∧
    (Definition_process extBad badDisk badDef []).2.2.2.1 = badDisk ∧
    (Definition_process extBad badDisk badDef []).2.2.2.2 =
      ["Error loading options from definition file: " ++
        "Missing key templates in template definition"] :=
  parse_failure_aborts_manifest extBad badDisk badDef []
    "Missing key templates in template definition" rfl

theorem assocFind_append {κ α : Type} [DecidableEq κ]
    (l1 l2 : List (κ × α)) (k : κ) :
    assocFind (l1 ++ l2) k =
      match assocFind l1 k with
      | some a => some a
      | none => assocFind l2 k := by
  induction l1 with
  | nil => rfl
  | cons p tl ih =>
      rw [show (p :: tl : List (κ × α)) = (p.1, p.2) :: tl from rfl]
      rw [List.cons_append, assocFind, assocFind]
      by_cases h : p.1 = k
      · rw [if_pos h, if_pos h]
      · rw [if_neg h, if_neg h]
        exact ih

/- The disposal loop removes exactly the previously existing units
   whose fingerprint no longer appears in the fresh unit mapping. -/
theorem disposeLoop_removed (tn : List (UnitConfig × Templ)) :
    ∀ (old : List (UnitConfig × Templ)) (reg : Registry),
      (disposeLoop tn old reg).2 =
        (old.filter (fun p => !(assocFind tn p.1).isSome)).map Prod.fst := by
  intro old
  induction old with
  | nil => intro reg; rfl
  | cons p tl ih =>
      intro reg
      rw [show (p :: tl : List (UnitConfig × Templ)) = (p.1, p.2) :: tl from rfl]
      rw [disposeLoop]
      by_cases hf : (assocFind tn p.1).isSome = true
      · rw [if_pos hf]
        rw [List.filter_cons]
        simp only [hf, Bool.not_true, Bool.false_eq_true, if_false]
        exact ih reg
      · rw [if_neg hf]
        rw [List.filter_cons]
        simp only [Bool.not_eq_true] at hf
        simp only [hf, Bool.not_false, if_true, List.map_cons]
        have := ih (Template_remove p.1 p.2 reg)
        rcases hDL : disposeLoop tn tl (Template_remove p.1 p.2 reg) with ⟨reg2, rmd⟩
        rw [hDL] at this
        exact congrArg (List.cons p.1) this

/- Every entry surviving cleanup_unused_files has subscribers. -/
theorem cleanup_no_empty (reg : Registry) :
    ∀ p ∈ cleanup_unused_files reg, p.2 ≠ [] := by
  intro p hp
  rw [cleanup_unused_files] at hp
  have hmem := List.of_mem_filter hp
  intro hc
  rw [hc] at hmem
  simp at hmem

/- Appending one unit keeps the reuse invariant for a fingerprint h,
   as long as the appended unit, if keyed by h, carries T. -/
theorem reuse_inv_extend (tn0 : List (UnitConfig × Templ)) (h : UnitConfig)
    (T : Templ) (cfg : UnitConfig) (tm : Templ)
    (hinv : ∀ T', assocFind tn0 h = some T' → T' = T)
    (hsing : cfg = h → tm = T) :
    ∀ T', assocFind (tn0 ++ [(cfg, tm)]) h = some T' → T' = T := by
  intro T' hT'
  rw [assocFind_append] at hT'
  cases hfind0 : assocFind tn0 h with
  | some a =>
      rw [hfind0] at hT'
      exact hinv T' (hfind0.trans (congrArg some (Option.some.inj hT')))
  | none =>
      rw [hfind0] at hT'
      rw [assocFind] at hT'
      by_cases hc : cfg = h
      · rw [if_pos hc] at hT'
        rw [← Option.some.inj hT']
        exact hsing hc
      · rw [if_neg hc] at hT'
        rw [assocFind] at hT'
        exact Option.noConfusion hT'

/- The per-entry loop of _parse never rebuilds a unit whose
   fingerprint already existed: the fresh mapping can only bind such a
   fingerprint to the previously installed instance, and its
   fingerprint is never scheduled for re-render. -/
theorem parseLoop_reuse_invariant (E : Ext) (disk : Disk) (defPath : String)
    (fo : Bool) (old : List (UnitConfig × Templ)) (gvars : VDict)
    (gincl : List String) (h : UnitConfig) (T : Templ)
    (hold : assocFind old h = some T) :
    ∀ (entries : VList) (tn0 : List (UnitConfig × Templ)) (ch0 : List UnitConfig)
      (reg0 : Registry) (tn : List (UnitConfig × Templ)) (ch : List UnitConfig)
      (reg1 : Registry),
      (∀ T', assocFind tn0 h = some T' → T' = T) → h ∉ ch0 →
      parseLoop E disk defPath fo old gvars gincl entries tn0 ch0 reg0 =
        (tn, ch, reg1, none) →
      (∀ T', assocFind tn h = some T' → T' = T) ∧ h ∉ ch := by
  intro entries
  induction entries using vlistInduction with
  | nil =>
      intro tn0 ch0 reg0 tn ch reg1 hinv hch hp
      rw [parseLoop] at hp
      simp only [Prod.mk.injEq] at hp
      obtain ⟨h1, h2, -, -⟩ := hp
      subst h1; subst h2
      exact ⟨hinv, hch⟩
  | cons t tl ih =>
      intro tn0 ch0 reg0 tn ch reg1 hinv hch hp
      rw [parseLoop] at hp
      cases hpv : parse_variable_options t with
      | error e =>
          simp only [hpv, Prod.mk.injEq] at hp
          exact Option.noConfusion hp.2.2.2
      | ok pv =>
          rcases pv with ⟨tvars, tincl⟩
          simp only [hpv] at hp
          cases hsrc : entryPathString t "src" with
          | error e =>
              simp only [hsrc, Prod.mk.injEq] at hp
              exact Option.noConfusion hp.2.2.2
          | ok src =>
              simp only [hsrc] at hp
              cases hdest : entryPathString t "dest" with
              | error e =>
                  simp only [hdest, Prod.mk.injEq] at hp
                  exact Option.noConfusion hp.2.2.2
              | ok dest =>
                  simp only [hdest] at hp
                  cases hfind : assocFind old
                      (⟨gincl, gvars, tincl, tvars, src, dest⟩ : UnitConfig) with
                  | some tOld =>
                      simp only [hfind] at hp
                      refine ih _ _ _ _ _ _ ?_ hch hp
                      refine reuse_inv_extend tn0 h T _ tOld hinv ?_
                      intro hc
                      rw [hc, hold] at hfind
                      exact (Option.some.inj hfind).symm
                  | none =>
                      simp only [hfind] at hp
                      have hne : (⟨gincl, gvars, tincl, tvars, src, dest⟩ : UnitConfig) ≠ h := by
                        intro hc
                        rw [hc, hold] at hfind
                        exact Option.noConfusion hfind
                      rcases hAF1 : add_files
                          (⟨gincl, gvars, tincl, tvars, src, dest⟩ : UnitConfig)
                          (os_path_dirname defPath) gincl [] reg0 with ⟨chain1, rg1⟩
                      simp only [hAF1] at hp
                      rcases hAF2 : add_files
                          (⟨gincl, gvars, tincl, tvars, src, dest⟩ : UnitConfig)
                          (os_path_dirname defPath) tincl
                          (add_context chain1 gvars defPath) rg1 with ⟨chain3, rg2⟩
                      simp only [hAF2] at hp
                      cases hTN : Template_new E disk
                          (⟨gincl, gvars, tincl, tvars, src, dest⟩ : UnitConfig)
                          src dest (os_path_dirname defPath)
                          (add_context chain3 tvars defPath) fo rg2 with
                      | error e =>
                          simp only [hTN, Prod.mk.injEq] at hp
                          exact Option.noConfusion hp.2.2.2
                      | ok p =>
                          rcases p with ⟨tm, rg3⟩
                          simp only [hTN] at hp
                          refine ih _ _ _ _ _ _ ?_ ?_ hp
                          · exact reuse_inv_extend tn0 h T _ tm hinv
                              (fun hc => absurd hc hne)
                          · intro hc
                            rcases List.mem_append.mp hc with hc | hc
                            · exact hch hc
                            · rcases List.mem_singleton.mp hc with hc
                              exact hne hc.symm

/- A successful _parse is exactly: the entry loop succeeded, then the
   disposal pass over the old units ran, then unused cache entries
   were evicted. -/
theorem Definition_parse_ok_shape (E : Ext) (disk : Disk) (st : DefSt)
    (reg : Registry) (tn : List (UnitConfig × Templ))
    (hok : (Definition_parse E disk st reg).result = .ok tn) :
    ∃ (entries : VList) (gvars : VDict) (gincl : List String)
      (ch1 : List UnitConfig) (reg1 : Registry),
      parseLoop E disk st.path st.force_overwrite st.templates gvars gincl entries
        [] [] reg = (tn, ch1, reg1, none) ∧
      Definition_parse E disk st reg =
        ⟨ch1, cleanup_unused_files (disposeLoop tn st.templates reg1).1,
         (disposeLoop tn st.templates reg1).2, .ok tn⟩ := by
  rw [Definition_parse] at hok ⊢
  cases hread : CachedFile_read disk st.path with
  | error e => simp only [hread] at hok; exact Except.noConfusion hok
  | ok content =>
  simp only [hread] at hok ⊢
  cases hload : load_yaml E content with
  | error e => simp only [hload] at hok; exact Except.noConfusion hok
  | ok fc =>
  simp only [hload] at hok ⊢
  cases hkey : valueHasKey fc "templates" with
  | error e => simp only [hkey] at hok; exact Except.noConfusion hok
  | ok tvOpt =>
  simp only [hkey] at hok ⊢
  cases tvOpt with
  | none => exact Except.noConfusion hok
  | some tv =>
  cases tv with
  | list entries =>
      cases hgl : parse_variable_options fc with
      | error e => simp only [hgl] at hok; exact Except.noConfusion hok
      | ok gl =>
          rcases gl with ⟨gvars, gincl⟩
          simp only [hgl] at hok ⊢
          rcases hPL : parseLoop E disk st.path st.force_overwrite st.templates
              gvars gincl entries [] [] reg with ⟨tn1, ch1, reg1, optE⟩
          simp only [hPL] at hok ⊢
          cases optE with
          | some e => exact Except.noConfusion hok
          | none =>
              have htn : tn1 = tn := Except.ok.inj hok
              subst htn
              refine ⟨entries, gvars, gincl, ch1, reg1, hPL, ?_⟩
              rcases hDL : disposeLoop tn1 st.templates reg1 with ⟨reg2, removed⟩
              simp only [hDL]
  | null => exact Except.noConfusion hok
  | str s => exact Except.noConfusion hok
  | int n => exact Except.noConfusion hok
  | bool b => exact Except.noConfusion hok
  | omitObj => exact Except.noConfusion hok
  | dict d => exact Except.noConfusion hok

/-- Claim C6 (confirmed): on every successful re-parse of a manifest,
each declared unit whose configuration fingerprint already exists from
the previous parse is carried over as the same unit instance (the
fresh mapping can only bind that fingerprint to the previously
installed instance) with no re-render scheduled (the fingerprint is
not in changed_templates); every previously existing unit whose
fingerprint no longer appears in the fresh mapping is disposed (the
removal pass runs exactly over those units); and afterwards every
cache entry with zero subscribers has been evicted from the file
registry. -/
theorem manifest_reparse_reuse_dispose_evict :
    ∀ (E : Ext) (disk : Disk) (st : DefSt) (reg : Registry)
      (tn : List (UnitConfig × Templ)),
      (Definition_parse E disk st reg).result = .ok tn →
      ((∀ h T, assocFind st.templates h = some T →
          (∀ T', assocFind tn h = some T' → T' = T) ∧
          h ∉ (Definition_parse E disk st reg).changed) ∧
       (Definition_parse E disk st reg).removed =
         (st.templates.filter (fun p => !(assocFind tn p.1).isSome)).map Prod.fst ∧
       (∀ p ∈ (Definition_parse E disk st reg).reg, p.2 ≠ [])) := by
  intro E disk st reg tn hok
  rcases Definition_parse_ok_shape E disk st reg tn hok with
    ⟨entries, gvars, gincl, ch1, reg1, hPL, hEq⟩
  refine ⟨?_, ?_, ?_⟩
  · intro h T hold
    have hmain := parseLoop_reuse_invariant E disk st.path st.force_overwrite
      st.templates gvars gincl h T hold entries [] [] reg tn ch1 reg1
      (fun T' hT' => by rw [assocFind] at hT'; exact Option.noConfusion hT')
      (List.not_mem_nil h) hPL
    rw [hEq]
    exact ⟨hmain.1, hmain.2⟩
  · rw [hEq]
    exact disposeLoop_removed tn st.templates reg1
  · rw [hEq]
    exact cleanup_no_empty _

/-- Claim C6 witness: the re-parse of the concrete manifest that keeps
mixCfg1, adds mixCfg2 and drops oldCfg: the parse succeeds, mixCfg1
is bound to the carried-over instance mixT1 and is not scheduled for
re-render (only mixCfg2 is), the removal pass runs exactly on oldCfg,
and the final registry holds no subscriber-less entry. -/
theorem manifest_reparse_reuse_dispose_evict_witness :
    (Definition_parse extParse parseDisk parseDef parseReg0).result =
      .ok [(mixCfg1, mixT1), (mixCfg2, mixT2)] ∧
    (∀ T', assocFind [(mixCfg1, mixT1), (mixCfg2, mixT2)] mixCfg1 = some T' →
      T' = mixT1) ∧
    mixCfg1 ∉ (Definition_parse extParse parseDisk parseDef parseReg0).changed ∧
    (Definition_parse extParse parseDisk parseDef parseReg0).changed = [mixCfg2] ∧
    (Definition_parse extParse parseDisk parseDef parseReg0).removed = [oldCfg] ∧
    (∀ p ∈ (Definition_parse extParse parseDisk parseDef parseReg0).reg,
      p.2 ≠ []) :=
  have hmain := manifest_reparse_reuse_dispose_evict extParse parseDisk parseDef
    parseReg0 [(mixCfg1, mixT1), (mixCfg2, mixT2)] rfl
  ⟨rfl, (hmain.1 mixCfg1 mixT1 rfl).1, (hmain.1 mixCfg1 mixT1 rfl).2, rfl,
   hmain.2.1.trans rfl, hmain.2.2⟩

end DCT
